import Mathlib

namespace DeltaPerformerModel

/-!
Verification development for the delta-update payload applier
(`delta_performer.cc` of the update-engine repository).

The C++ source is shallowly embedded: the `DeltaPerformer` object together
with its external collaborators (block devices, preference store, running
SHA-256) becomes an explicit state record, and each member function becomes
a Lean function on that record.  External capabilities that live outside the
translated file (protobuf parsing, the bzip2 decompressor, the external
`bspatch` tool, the SHA-256 digest itself, the filesystem) are parameters
collected in an `Env` record, so every definition stays executable once an
environment is supplied.  Machine integers are modelled as `Nat`/`Int`;
overflow is immaterial for the properties below.
-/

/-- A byte, modelled as a natural number. -/
abbrev Byte := Nat

/-- `Extent`: a pair `(start_block, num_blocks)` of 64-bit numbers. -/
structure Extent where
  start_block : Nat
  num_blocks : Nat
deriving DecidableEq, Repr

/-- `kSparseHole`: the maximum of the unsigned 64-bit domain, the sentinel
start block denoting a run of virtual zero blocks. -/
def kSparseHole : Nat := 2 ^ 64 - 1

/-- The four operation types of `DeltaArchiveManifest_InstallOperation_Type`. -/
inductive OpType where
  | REPLACE
  | REPLACE_BZ
  | MOVE
  | BSDIFF
deriving DecidableEq, Repr

/-- `DeltaArchiveManifest_InstallOperation`: type, source and destination
extents, optional lengths and data-blob coordinates.  The optional numeric
fields default to 0 when absent in the protobuf, which is how the C++
accessors behave, so they are plain `Nat` here. -/
structure InstallOperation where
  type : OpType
  src_extents : List Extent
  dst_extents : List Extent
  src_length : Nat
  dst_length : Nat
  data_offset : Nat
  data_length : Nat
deriving DecidableEq, Repr

/-- `DeltaArchiveManifest`. -/
structure Manifest where
  block_size : Nat
  install_operations : List InstallOperation
  kernel_install_operations : List InstallOperation
  signatures_offset : Option Nat
  signatures_size : Option Nat
deriving DecidableEq, Repr

/-- A block device, byte-addressed. -/
def Device := Nat → Byte

/-- `utils::PWriteAll`: positioned write of `data` at byte offset `off`. -/
def pwriteAll (d : Device) (off : Nat) (data : List Byte) : Device :=
  fun a => if off ≤ a ∧ a < off + data.length then data.getD (a - off) 0 else d a

/-- `utils::PReadAll`: positioned read of `len` bytes at byte offset `off`. -/
def preadAll (d : Device) (off len : Nat) : List Byte :=
  (List.range len).map fun i => d (off + i)

/-- `OmahaHashCalculator`: the incremental SHA-256 tracker.  Its opaque
context is modelled as the exact byte sequence absorbed so far; `hashStr`
is the base64 digest installed by `Finalize` (empty before). -/
structure Hasher where
  ctx : List Byte
  hashStr : String
deriving DecidableEq, Repr

/-- `OmahaHashCalculator::Update`. -/
def Hasher.update (h : Hasher) (bytes : List Byte) : Hasher :=
  { h with ctx := h.ctx ++ bytes }

/-- Values held by the preference store: int64s, strings, and serialized
hash contexts (kept as the absorbed byte list, the model of a context). -/
inductive PrefVal where
  | int (v : Int)
  | str (v : String)
  | hctx (v : List Byte)
deriving DecidableEq, Repr

/-- The preference key-value store.  `failKeys` marks the keys whose writes
fail, modelling persistence failures of the underlying store. -/
structure Prefs where
  store : List (String × PrefVal)
  failKeys : String → Bool

/-- `PrefsInterface::SetInt64` (also used for `SetString`/context writes via
the wrappers below): returns the new store and the success flag. -/
def Prefs.set (p : Prefs) (k : String) (v : PrefVal) : Prefs × Bool :=
  if p.failKeys k then (p, false)
  else ({ p with store := (k, v) :: p.store }, true)

def Prefs.setInt64 (p : Prefs) (k : String) (v : Int) : Prefs × Bool :=
  p.set k (.int v)

def Prefs.setCtx (p : Prefs) (k : String) (v : List Byte) : Prefs × Bool :=
  p.set k (.hctx v)

/-- Preference-store key names (from `prefs_interface.h` contracts given in
the spec's external-interface table). -/
def kPrefsManifestMetadataSize : String := "manifest-metadata-size"
def kPrefsUpdateStateNextOperation : String := "update-state-next-operation"
def kPrefsUpdateStateNextDataOffset : String := "update-state-next-data-offset"
def kPrefsUpdateStateSHA256Context : String := "update-state-sha256-context"
def kPrefsUpdateStateSignedSHA256Context : String :=
  "update-state-signed-sha256-context"

/-- `kUpdateStateOperationInvalid = -1`. -/
def kUpdateStateOperationInvalid : Int := -1

/-- `EINVAL`. -/
def EINVAL : Int := 22

/-- `strlen(kDeltaMagic) = 4`: the applier only ever uses the magic's
length, never its contents. -/
def kDeltaMagicLen : Nat := 4

/-- Modelled from the spec: the fixed 4-byte ASCII MAGIC tag shared by
generator and applier ("CrAU"); it is defined by the payload generator,
which is outside the translated source.  The applier's code uses only
`strlen(kDeltaMagic)`; because it is a C string of length 4, all four tag
bytes are necessarily nonzero ASCII. -/
def kDeltaMagicBytes : List Byte := [67, 114, 65, 85]

/-- `kDeltaVersionLength = 8`, `kDeltaProtobufLengthLength = 8`. -/
def kDeltaVersionLength : Nat := 8
def kDeltaProtobufLengthLength : Nat := 8

/-- Observable effects, recorded in order of occurrence. -/
inductive Event where
  /-- a preference-store write of an int64 (key, value, success) -/
  | prefSetInt (key : String) (v : Int) (ok : Bool)
  /-- a preference-store write of a string or hash context (key, success) -/
  | prefSet (key : String) (ok : Bool)
  /-- `Terminator::set_exit_blocked(true)` -/
  | termBlock
  /-- beginning to execute operation `n` -/
  | opExec (n : Nat)
  /-- the BSDIFF tail-zeroing positioned write over `[beginByte, endByte)` -/
  | zeroWrite (kernel : Bool) (beginByte endByte : Nat)
  /-- `close(fd)` -/
  | closeFd (fd : Int)
deriving DecidableEq, Repr

/-- The whole observable state: the `DeltaPerformer` members plus its
exclusively-owned collaborators (the two devices, the preference store,
the Terminator flag). -/
structure FullState where
  buffer : List Byte
  buffer_offset : Nat
  manifest_valid : Bool
  manifest : Manifest
  manifest_metadata_size : Nat
  next_operation_num : Nat
  block_size : Nat
  signatures_message_data : List Byte
  signed_hash_context : List Byte
  hash_calculator : Hasher
  /-- last checkpointed `buffer_offset`; starts below any real offset -/
  last_updated_buffer_offset : Int
  fd : Int
  kernel_fd : Int
  path : String
  kernel_path : String
  prefs : Prefs
  rootfs : Device
  kernel : Device
  terminator_blocked : Bool

/-- External capabilities of the applier, supplied by the host process:
protobuf parsing, bzip2 decompression, the external patch program (as a
transformation of the device it patches plus its exit code), the SHA-256
digest, and filesystem / signature services used by `VerifyPayload`,
`Open` and `Close`. -/
structure Env where
  parseManifest : List Byte → Option Manifest
  bunzip : List Byte → Option (List Byte)
  bspatch : Device → List Byte → String → String → Device × Int
  shaB64 : List Byte → String
  shaRaw : List Byte → List Byte
  fileExists : String → Bool
  verifySignature : List Byte → String → Option (List Byte)
  openFd : String → Except Nat Int
  closeErr : Int → Nat

/-- `DeltaPerformer::DiscardBufferHeadBytes`: feed the first `count` buffer
bytes to the running SHA-256 and remove them. -/
def DiscardBufferHeadBytes (st : FullState) (count : Nat) : FullState :=
  { st with
    hash_calculator := st.hash_calculator.update (st.buffer.take count)
    buffer := st.buffer.drop count }

/-- `IsIdempotentOperation`: an operation is idempotent iff it has no
source extents. -/
def IsIdempotentOperation (op : InstallOperation) : Bool :=
  op.src_extents.length = 0

/-- `DeltaPerformer::ResetUpdateProgress`: persist the INVALID sentinel
under the next-operation key. -/
def ResetUpdateProgress (p : Prefs) : Prefs × Bool :=
  p.setInt64 kPrefsUpdateStateNextOperation kUpdateStateOperationInvalid

/-- `DeltaPerformer::CanPerformInstallOperation`: MOVE needs no data blob;
otherwise the entire blob must be present in the buffer and the stream
must not have regressed. -/
def CanPerformInstallOperation (st : FullState) (op : InstallOperation) : Bool :=
  if op.type = .MOVE then true
  else if op.data_offset < st.buffer_offset then false
  else op.data_offset + op.data_length ≤ st.buffer_offset + st.buffer.length

/-- `DeltaPerformer::CheckpointUpdateProgress`: engage the Terminator; if
the offset advanced, first reset the next-operation key (result ignored),
then persist the SHA-256 context and the data offset; finally persist the
next operation number.  Any failing store write aborts the remainder and
returns false. -/
def CheckpointUpdateProgress (st : FullState) : FullState × Bool × List Event :=
  let st := { st with terminator_blocked := true }
  let evs := [Event.termBlock]
  if st.last_updated_buffer_offset ≠ (st.buffer_offset : Int) then
    let (p1, ok1) := ResetUpdateProgress st.prefs
    let evs := evs ++ [.prefSetInt kPrefsUpdateStateNextOperation
      kUpdateStateOperationInvalid ok1]
    let (p2, ok2) := p1.setCtx kPrefsUpdateStateSHA256Context st.hash_calculator.ctx
    let evs := evs ++ [.prefSet kPrefsUpdateStateSHA256Context ok2]
    if ¬ok2 then ({ st with prefs := p2 }, false, evs)
    else
      let (p3, ok3) := p2.setInt64 kPrefsUpdateStateNextDataOffset st.buffer_offset
      let evs := evs ++ [.prefSetInt kPrefsUpdateStateNextDataOffset
        st.buffer_offset ok3]
      if ¬ok3 then ({ st with prefs := p3 }, false, evs)
      else
        let st := { st with prefs := p3,
                            last_updated_buffer_offset := (st.buffer_offset : Int) }
        let (p4, ok4) := st.prefs.setInt64 kPrefsUpdateStateNextOperation
          st.next_operation_num
        let evs := evs ++ [.prefSetInt kPrefsUpdateStateNextOperation
          st.next_operation_num ok4]
        ({ st with prefs := p4 }, ok4, evs)
  else
    let (p4, ok4) := st.prefs.setInt64 kPrefsUpdateStateNextOperation
      st.next_operation_num
    let evs := evs ++ [.prefSetInt kPrefsUpdateStateNextOperation
      st.next_operation_num ok4]
    ({ st with prefs := p4 }, ok4, evs)

/-! ### Decimal rendering (the StringPrintf `%PRIi64:%PRIu64` format) -/

/-- One decimal digit character. -/
def digitChar (n : Nat) : Char := Char.ofNat (48 + n)

/-- Fuel-driven decimal digit emitter (most significant first). -/
def natDecCharsCore : Nat → Nat → List Char
  | 0, _ => []
  | fuel + 1, n =>
    if n < 10 then [digitChar n]
    else natDecCharsCore fuel (n / 10) ++ [digitChar (n % 10)]

/-- Decimal digits of a natural number. -/
def natDecChars (n : Nat) : List Char := natDecCharsCore (n + 1) n

/-- Decimal rendering of an integer (printf `%lld`). -/
def intDecChars (i : Int) : List Char :=
  if i < 0 then '-' :: natDecChars (-i).toNat else natDecChars i.toNat

/-- `DeltaPerformer::ExtentsToBsdiffPositionsString`, loop body: running
string and consumed-length accumulators over the extent list.  For each
extent the emitted start is `-1` for a sparse hole and
`start_block * block_size` otherwise, and the emitted length is the rest of
`full_length` capped by the extent's byte capacity. -/
def bsdiffPositionsGo (bs full_length : Nat) :
    List Extent → List Char → Nat → List Char × Nat
  | [], ret, length => (ret, length)
  | e :: es, ret, length =>
    let start : Int :=
      if e.start_block = kSparseHole then -1 else (e.start_block : Int) * bs
    let this_length := min (full_length - length) (e.num_blocks * bs)
    bsdiffPositionsGo bs full_length es
      (ret ++ intDecChars start ++ ':' :: (natDecChars this_length ++ [',']))
      (length + this_length)

/-- `DeltaPerformer::ExtentsToBsdiffPositionsString`: fails unless the
extents consumed exactly `full_length`; on success strips the trailing
comma and returns the string. -/
def ExtentsToBsdiffPositionsString (extents : List Extent)
    (block_size full_length : Nat) : Option String :=
  let p := bsdiffPositionsGo block_size full_length extents [] 0
  if p.2 = full_length then some (String.mk p.1.dropLast) else none

/-! ### The extent-writer stack

`DirectExtentWriter`, `ZeroPadExtentWriter` and `BzipExtentWriter` live in
`extent_writer.h` / `bzip_extent_writer.h`, outside the translated source;
they are modelled from the spec's component description (§4.2). -/

/-- Modelled from the spec: the `ZeroPadExtentWriter` decorator — at `end`,
pad what was written to the underlying sink with zeros up to a whole
`block_size` multiple. -/
def zeroPad (bs : Nat) (data : List Byte) : List Byte :=
  data ++ List.replicate ((bs - data.length % bs) % bs) 0

/-- Modelled from the spec: `DirectExtentWriter` — scatter a logical byte
stream across the extent list in order; a sparse-hole extent discards its
share of the stream without issuing I/O. -/
def writeExtents (dev : Device) (extents : List Extent) (bs : Nat)
    (data : List Byte) : Device :=
  match extents with
  | [] => dev
  | e :: es =>
    let chunk := data.take (e.num_blocks * bs)
    let dev :=
      if e.start_block = kSparseHole then dev
      else pwriteAll dev (e.start_block * bs) chunk
    writeExtents dev es bs (data.drop (e.num_blocks * bs))

/-! ### The install-operation implementations -/

/-- `DeltaPerformer::ExtractSignatureMessage`: when this REPLACE carries
the manifest's signature blob, copy it out of the buffer head, snapshot the
current SHA-256 context, and persist the snapshot (failure only logged). -/
def ExtractSignatureMessage (st : FullState) (op : InstallOperation) :
    FullState × Bool × List Event :=
  if op.type ≠ .REPLACE ∨ st.manifest.signatures_offset = none ∨
      st.manifest.signatures_offset ≠ some op.data_offset then
    (st, false, [])
  else if ¬(st.manifest.signatures_size = some op.data_length) then
    (st, false, [])
  else if st.signatures_message_data ≠ [] then (st, false, [])
  else if ¬(some st.buffer_offset = st.manifest.signatures_offset) then
    (st, false, [])
  else if st.buffer.length < op.data_length then (st, false, [])
  else
    let sigs := st.buffer.take op.data_length
    let ctx := st.hash_calculator.ctx
    let (p, ok) := st.prefs.setCtx kPrefsUpdateStateSignedSHA256Context ctx
    ({ st with signatures_message_data := sigs,
               signed_hash_context := ctx,
               prefs := p },
     true, [.prefSet kPrefsUpdateStateSignedSHA256Context ok])

/-- Read or write the partition selected by `is_kernel_partition`. -/
def FullState.device (st : FullState) (is_kernel : Bool) : Device :=
  if is_kernel then st.kernel else st.rootfs

def FullState.setDevice (st : FullState) (is_kernel : Bool) (d : Device) :
    FullState :=
  if is_kernel then { st with kernel := d } else { st with rootfs := d }

/-- `DeltaPerformer::PerformReplaceOperation`: check buffer alignment,
extract the signature message if present, run the (optionally bzip2)
writer stack over the destination extents, then consume the data blob. -/
def PerformReplaceOperation (env : Env) (st : FullState)
    (op : InstallOperation) (is_kernel : Bool) : FullState × Bool × List Event :=
  let evs := [Event.opExec st.next_operation_num]
  if ¬(op.type = .REPLACE ∨ op.type = .REPLACE_BZ) then (st, false, evs)
  else if ¬(st.buffer_offset = op.data_offset) then (st, false, evs)
  else if st.buffer.length < op.data_length then (st, false, evs)
  else
    let (st, _sig, evs1) := ExtractSignatureMessage st op
    let data := st.buffer.take op.data_length
    match (if op.type = .REPLACE then some data else env.bunzip data) with
    | none => (st, false, evs ++ evs1)
    | some plain =>
      let dev := writeExtents (st.device is_kernel) op.dst_extents
        st.block_size (zeroPad st.block_size plain)
      let st := st.setDevice is_kernel dev
      let st := { st with buffer_offset := st.buffer_offset + op.data_length }
      let st := DiscardBufferHeadBytes st op.data_length
      (st, true, evs ++ evs1)

/-- `PerformMoveOperation`, write-out loop: write each destination extent
from the staging buffer at sequential offsets. -/
def moveWriteOut (bs : Nat) (buf : List Byte) :
    Device → Nat → List Extent → Device
  | dev, _, [] => dev
  | dev, written, e :: es =>
    let dev := pwriteAll dev (e.start_block * bs)
      ((buf.drop written).take (e.num_blocks * bs))
    moveWriteOut bs buf dev (written + e.num_blocks * bs) es

/-- `DeltaPerformer::PerformMoveOperation`: read every source extent in
order into a staging buffer sized by the destination blocks (zero-filled,
as `vector<char>` is), then write every destination extent from it.  No
data-blob bytes are consumed. -/
def PerformMoveOperation (st : FullState) (op : InstallOperation)
    (is_kernel : Bool) : FullState × Bool × List Event :=
  let evs := [Event.opExec st.next_operation_num]
  let bs := st.block_size
  let blocks_to_write := (op.dst_extents.map (·.num_blocks)).sum
  let dev := st.device is_kernel
  let readBytes :=
    (op.src_extents.map fun e => preadAll dev (e.start_block * bs)
      (e.num_blocks * bs)).flatten
  let buf := (readBytes ++ List.replicate (blocks_to_write * bs) 0).take
    (blocks_to_write * bs)
  (st.setDevice is_kernel (moveWriteOut bs buf dev 0 op.dst_extents), true, evs)

/-- `DeltaPerformer::PerformBsdiffOperation`: check buffer alignment,
format the two position strings, run the external patch tool on the
partition (it mutates the device and yields an exit code), require exit
code 0, zero the tail of the last destination block when `dst_length` is
not a whole number of blocks, then consume the data blob. -/
def PerformBsdiffOperation (env : Env) (st : FullState)
    (op : InstallOperation) (is_kernel : Bool) : FullState × Bool × List Event :=
  let evs := [Event.opExec st.next_operation_num]
  if ¬(st.buffer_offset = op.data_offset) then (st, false, evs)
  else if st.buffer.length < op.data_length then (st, false, evs)
  else
    match ExtentsToBsdiffPositionsString op.src_extents st.block_size
        op.src_length,
      ExtentsToBsdiffPositionsString op.dst_extents st.block_size
        op.dst_length with
    | some input_positions, some output_positions =>
      let (dev1, return_code) := env.bspatch (st.device is_kernel)
        (st.buffer.take op.data_length) input_positions output_positions
      let st := st.setDevice is_kernel dev1
      if return_code ≠ 0 then (st, false, evs)
      else
        let (st, evs) :=
          if op.dst_length % st.block_size ≠ 0 then
            let last_extent := op.dst_extents.getLastD ⟨0, 0⟩
            let end_byte :=
              (last_extent.start_block + last_extent.num_blocks) * st.block_size
            let begin_byte :=
              end_byte - (st.block_size - op.dst_length % st.block_size)
            (st.setDevice is_kernel
              (pwriteAll dev1 begin_byte
                (List.replicate (end_byte - begin_byte) 0)),
             evs ++ [.zeroWrite is_kernel begin_byte end_byte])
          else (st, evs)
        let st := { st with buffer_offset := st.buffer_offset + op.data_length }
        let st := DiscardBufferHeadBytes st op.data_length
        (st, true, evs)
    | _, _ => (st, false, evs)

/-! ### The streaming `Write` state machine -/

/-- `install_operations_size() + kernel_install_operations_size()`. -/
def totalOps (m : Manifest) : Nat :=
  m.install_operations.length + m.kernel_install_operations.length

/-- The `n`-th operation of the concatenated rootfs-then-kernel list. -/
def opAt (m : Manifest) (n : Nat) : InstallOperation :=
  if n < m.install_operations.length then
    m.install_operations.getD n ⟨.MOVE, [], [], 0, 0, 0, 0⟩
  else
    m.kernel_install_operations.getD (n - m.install_operations.length)
      ⟨.MOVE, [], [], 0, 0, 0, 0⟩

/-- The crash-safety pre-step of the loop body: if the operation is not
idempotent, engage the Terminator and reset the persisted next-operation
checkpoint to INVALID (result ignored) before executing it. -/
def preStep (st : FullState) (op : InstallOperation) :
    FullState × List Event :=
  if IsIdempotentOperation op then (st, ([] : List Event))
  else
    let st := { st with terminator_blocked := true }
    let (p, ok) := ResetUpdateProgress st.prefs
    ({ st with prefs := p },
     [Event.termBlock, .prefSetInt kPrefsUpdateStateNextOperation
       kUpdateStateOperationInvalid ok])

/-- The dispatch on the operation type (the if/else-if chain of `Write`). -/
def dispatchOp (env : Env) (st : FullState) (op : InstallOperation)
    (is_kernel : Bool) : FullState × Bool × List Event :=
  match op.type with
  | .REPLACE => PerformReplaceOperation env st op is_kernel
  | .REPLACE_BZ => PerformReplaceOperation env st op is_kernel
  | .MOVE => PerformMoveOperation st op is_kernel
  | .BSDIFF => PerformBsdiffOperation env st op is_kernel

/-- One iteration of the operation loop in `Write`: the crash-safety
pre-step for non-idempotent operations, the dispatch on the operation
type, and — on success — the increment of `next_operation_num` followed by
the checkpoint (whose result line 251 discards).  The
`ScopedTerminatorExitUnblocker` unblocks exit when the iteration scope is
left, on every path. -/
def loopIter (env : Env) (st : FullState) (op : InstallOperation)
    (is_kernel : Bool) : FullState × Bool × List Event :=
  let (st, evs0) := preStep st op
  let (st, ok, evs1) := dispatchOp env st op is_kernel
  if ok then
    let st := { st with next_operation_num := st.next_operation_num + 1 }
    let (st, _ckpt, evs2) := CheckpointUpdateProgress st
    ({ st with terminator_blocked := false }, true, evs0 ++ evs1 ++ evs2)
  else
    ({ st with terminator_blocked := false }, false, evs0 ++ evs1)

/-- The `while (next_operation_num_ < total_operations)` loop of `Write`,
with fuel (`Write` supplies exactly the number of remaining operations).
The Bool result is false exactly when the call must return `-EINVAL`. -/
def opLoop (env : Env) : Nat → FullState → FullState × Bool × List Event
  | 0, st => (st, true, [])
  | fuel + 1, st =>
    if st.next_operation_num < totalOps st.manifest then
      let op := opAt st.manifest st.next_operation_num
      if CanPerformInstallOperation st op then
        let is_kernel :=
          st.manifest.install_operations.length ≤ st.next_operation_num
        let (st1, ok, evs1) := loopIter env st op is_kernel
        if ok then
          let (st2, ok2, evs2) := opLoop env fuel st1
          (st2, ok2, evs1 ++ evs2)
        else (st1, false, evs1)
      else (st, true, [])
    else (st, true, [])

/-- Big-endian 64-bit decode (`be64toh` of the 8 length bytes). -/
def be64 (bytes : List Byte) : Nat :=
  bytes.foldl (fun a b => a * 256 + b) 0

/-- Result of the manifest-recognition phase of `Write`. -/
inductive ParseResult where
  /-- not enough bytes yet: accept the bytes and wait -/
  | needMore
  /-- the protobuf did not parse: return `-EINVAL` -/
  | err
  /-- manifest parsed; header and protobuf discarded (and hashed) -/
  | ok (st : FullState) (evs : List Event)

/-- The manifest phase of `Write`: wait for
`magic + version + length` bytes, decode the big-endian protobuf length,
wait for the whole prefix, parse the protobuf, then discard the metadata
from the buffer (hashing it), persist the metadata size (failure only
logged), mark the manifest valid and record the block size.  The magic
bytes are never inspected — only their length contributes to offsets. -/
def tryParseManifest (env : Env) (st : FullState) : ParseResult :=
  if st.buffer.length <
      kDeltaMagicLen + kDeltaVersionLength + kDeltaProtobufLengthLength then
    .needMore
  else
    let protobuf_length :=
      be64 ((st.buffer.drop (kDeltaMagicLen + kDeltaVersionLength)).take
        kDeltaProtobufLengthLength)
    if st.buffer.length < kDeltaMagicLen + kDeltaVersionLength +
        kDeltaProtobufLengthLength + protobuf_length then
      .needMore
    else
      let offset := kDeltaMagicLen + kDeltaVersionLength +
        kDeltaProtobufLengthLength
      match env.parseManifest ((st.buffer.drop offset).take protobuf_length) with
      | none => .err
      | some m =>
        let mms := offset + protobuf_length
        let st := { st with manifest := m }
        let st := DiscardBufferHeadBytes st mms
        let (p, okp) := st.prefs.setInt64 kPrefsManifestMetadataSize mms
        .ok { st with manifest_metadata_size := mms,
                      prefs := p,
                      manifest_valid := true,
                      block_size := m.block_size }
          [.prefSetInt kPrefsManifestMetadataSize mms okp]

/-- Append freshly received bytes to the streaming buffer. -/
def addBytes (bytes : List Byte) (st : FullState) : FullState :=
  { st with buffer := st.buffer ++ bytes }

/-- `DeltaPerformer::Write`: append the received bytes; if the manifest is
not yet valid run the manifest phase (waiting, failing with `-EINVAL`, or
consuming the metadata); then run the operation loop.  Returns the final
state, the return value (`count` or `-EINVAL`), and the event trace. -/
def Write (env : Env) (st : FullState) (bytes : List Byte) :
    FullState × Int × List Event :=
  let count : Int := (bytes.length : Int)
  let st := addBytes bytes st
  match (if st.manifest_valid then ParseResult.ok st [] else
      tryParseManifest env st) with
  | .needMore => (st, count, [])
  | .err => (st, -EINVAL, [])
  | .ok st' evs =>
    let (st'', ok, evs2) :=
      opLoop env (totalOps st'.manifest - st'.next_operation_num) st'
    (st'', if ok then count else -EINVAL, evs ++ evs2)

/-- Feed a list of chunks to `Write` one after the other; the final state. -/
def writeAll (env : Env) (st : FullState) : List (List Byte) → FullState
  | [] => st
  | c :: cs => writeAll env (Write env st c).1 cs

/-! ### `Open`, `Close`, `VerifyPayload` -/

/-- `OpenFile`: refuses when the descriptor slot is already in use
(`*fd != -1`), else opens read/write.  Returns (new fd slot, errno,
success). -/
def OpenFile (env : Env) (path : String) (fd : Int) : Int × Nat × Bool :=
  if fd ≠ -1 then (fd, EINVAL.toNat, false)
  else
    match env.openFd path with
    | .ok newFd => (newFd, 0, true)
    | .error e => (-1, e, false)

/-- `DeltaPerformer::Open`: open the rootfs partition. -/
def Open (env : Env) (st : FullState) (path : String) : FullState × Int :=
  let (fd', err, success) := OpenFile env path st.fd
  let st := { st with fd := fd' }
  if success then ({ st with path := path }, -(err : Int))
  else (st, -(err : Int))

/-- `DeltaPerformer::OpenKernel`. -/
def OpenKernel (env : Env) (st : FullState) (kernel_path : String) :
    FullState × Bool :=
  let (fd', _err, success) := OpenFile env kernel_path st.kernel_fd
  let st := { st with kernel_fd := fd' }
  if success then ({ st with kernel_path := kernel_path }, true)
  else (st, false)

/-- `DeltaPerformer::Close`: refuse (returning -1, with no effect) while
the buffer is non-empty; otherwise close both descriptors, finalize the
hash, and poison the rootfs descriptor slot with -2 so that later `Open`
calls fail. -/
def Close (env : Env) (st : FullState) : FullState × Int × List Event :=
  if st.buffer ≠ [] then (st, -1, [])
  else
    let evs := [Event.closeFd st.kernel_fd, Event.closeFd st.fd]
    let err1 := env.closeErr st.kernel_fd
    let err := if err1 ≠ 0 then err1 else 0
    let err2 := env.closeErr st.fd
    let err := if err2 ≠ 0 then err2 else err
    let st := { st with
      hash_calculator :=
        { st.hash_calculator with hashStr := env.shaB64 st.hash_calculator.ctx }
      fd := -2
      path := "" }
    (st, -(err : Int), evs)

/-- The key path used when the caller passes an empty string. -/
def kUpdatePayloadPublicKeyPath : String :=
  "/usr/share/update_engine/update-payload-key.pub.pem"

/-- `DeltaPerformer::VerifyPayload`: check the (finalized, non-empty)
download hash against the update-check response hash, check that exactly
`manifest_metadata_size + buffer_offset` bytes were promised, and then —
only if the public key file exists — verify the signature message and
compare the signed hash with the hash reconstructed from the snapshot
context. -/
def VerifyPayload (env : Env) (st : FullState) (public_key_path : String)
    (update_check_response_hash : String)
    (update_check_response_size : Nat) : Bool :=
  let key_path :=
    if public_key_path = "" then kUpdatePayloadPublicKeyPath
    else public_key_path
  let download_hash_data := st.hash_calculator.hashStr
  if download_hash_data = "" then false
  else if ¬(download_hash_data = update_check_response_hash) then false
  else if ¬(update_check_response_size =
      st.manifest_metadata_size + st.buffer_offset) then false
  else if ¬env.fileExists key_path then true
  else if st.signatures_message_data = [] then false
  else
    match env.verifySignature st.signatures_message_data key_path with
    | none => false
    | some signed_hash_data =>
      let hash_data := env.shaRaw st.signed_hash_context
      if hash_data = [] then false
      else decide (hash_data = signed_hash_data)

/-! ### Initial states and concrete environments (used by the concrete
instance theorems below) -/

/-- The all-zeros device. -/
def zeroDevice : Device := fun _ => 0

/-- A preference store in which every write succeeds. -/
def noFailPrefs : Prefs := ⟨[], fun _ => false⟩

/-- A preference store in which every write fails. -/
def allFailPrefs : Prefs := ⟨[], fun _ => true⟩

/-- A freshly constructed applier attached to a store and two devices:
empty buffer, no manifest, zero offsets, descriptors unopened, and a
last-checkpointed offset below every real offset. -/
def initState (prefs : Prefs) (rootfs kernel : Device) : FullState :=
  { buffer := []
    buffer_offset := 0
    manifest_valid := false
    manifest := ⟨0, [], [], none, none⟩
    manifest_metadata_size := 0
    next_operation_num := 0
    block_size := 0
    signatures_message_data := []
    signed_hash_context := []
    hash_calculator := ⟨[], ""⟩
    last_updated_buffer_offset := -1
    fd := -1
    kernel_fd := -1
    path := ""
    kernel_path := ""
    prefs := prefs
    rootfs := rootfs
    kernel := kernel
    terminator_blocked := false }

/-- A concrete environment for instance theorems: the protobuf parser
recognizes exactly the given encoded manifest, `bspatch` adds one to every
device byte and exits with the given code, and the remaining capabilities
are inert. -/
def mkTestEnv (protoBytes : List Byte) (m : Manifest) (patchExit : Int) : Env :=
  { parseManifest := fun l => if l = protoBytes then some m else none
    bunzip := fun l => some l
    bspatch := fun d _ _ _ => (fun a => d a + 1, patchExit)
    shaB64 := fun _ => "digest"
    shaRaw := fun l => l
    fileExists := fun _ => false
    verifySignature := fun _ _ => none
    openFd := fun _ => .ok 3
    closeErr := fun _ => 0 }

/-! ### Analysis of `ExtentsToBsdiffPositionsString` -/

/-- The start field emitted for one extent. -/
def bsdiffEntryStart (bs : Nat) (e : Extent) : Int :=
  if e.start_block = kSparseHole then -1 else (e.start_block : Int) * bs

/-- The `(start, length)` pairs emitted for an extent list with a
remaining-length budget. -/
def bsdiffEntries (bs : Nat) : List Extent → Nat → List (Int × Nat)
  | [], _ => []
  | e :: es, budget =>
    let t := min budget (e.num_blocks * bs)
    (bsdiffEntryStart bs e, t) :: bsdiffEntries bs es (budget - t)

/-- One `start:length,` group. -/
def renderEntry (p : Int × Nat) : List Char :=
  intDecChars p.1 ++ ':' :: (natDecChars p.2 ++ [','])

/-- All groups, concatenated. -/
def renderEntries (l : List (Int × Nat)) : List Char :=
  (l.map renderEntry).flatten

/-- Total byte capacity of an extent list. -/
def extCapacity (bs : Nat) (extents : List Extent) : Nat :=
  (extents.map (fun e => e.num_blocks * bs)).sum

/-! ### C8: BSDIFF tail zeroing -/

/-- The byte just past the last destination block of a BSDIFF operation:
`(last_dst.start_block + last_dst.num_blocks) * block_size`. -/
def bsdiffEndByte (bs : Nat) (op : InstallOperation) : Nat :=
  ((op.dst_extents.getLastD ⟨0, 0⟩).start_block +
    (op.dst_extents.getLastD ⟨0, 0⟩).num_blocks) * bs

/-- The first zeroed byte:
`end_byte - (block_size - dst_length mod block_size)`. -/
def bsdiffBeginByte (bs : Nat) (op : InstallOperation) : Nat :=
  bsdiffEndByte bs op - (bs - op.dst_length % bs)

/-- Fixture for the C8 witness: a one-block BSDIFF with `dst_length = 1`
and `block_size = 2` (so the tail of the last block must be zeroed). -/
def opW : InstallOperation := ⟨.BSDIFF, [⟨0, 1⟩], [⟨0, 1⟩], 2, 1, 0, 0⟩

def stW : FullState :=
  { initState noFailPrefs zeroDevice zeroDevice with block_size := 2 }

def envW : Env := mkTestEnv [] ⟨2, [], [], none, none⟩ 0

/-! ### C5: crash-safety pre-step -/

/-- Fixture: an idempotent REPLACE (no source extents). -/
def opRW : InstallOperation := ⟨.REPLACE, [], [⟨0, 1⟩], 0, 0, 0, 0⟩

/-! ### C10: `Close` atomicity -/

/-! ### C7: `VerifyPayload` with a missing public key -/

/-- Fixture: a state whose hash has been finalized to `"digest"`. -/
def stV : FullState := { stW with hash_calculator := ⟨[], "digest"⟩ }

/-! ### C3: stream regression -/

/-! Counterexample fixtures for C3: a payload whose second operation
reuses `data_offset = 0` after the first consumed two bytes, producing a
regressed stream.  The protobuf parser of the test environment recognizes
the one-byte encoding `[8]`. -/

def manifestC3 : Manifest :=
  ⟨1, [⟨.REPLACE, [], [⟨0, 2⟩], 0, 0, 0, 2⟩,
       ⟨.REPLACE, [], [⟨0, 1⟩], 0, 0, 0, 1⟩], [], none, none⟩

def envC3 : Env := mkTestEnv [8] manifestC3 0

def payloadC3 : List Byte :=
  [0, 0, 0, 0] ++ List.replicate 8 0 ++ [0, 0, 0, 0, 0, 0, 0, 1] ++ [8] ++
  [1, 2]

/-- The regressed state reached by feeding `payloadC3` to a fresh applier. -/
def stC3 : FullState :=
  (Write envC3 (initState noFailPrefs zeroDevice zeroDevice) payloadC3).1

/-! ### C2: persistence-failure propagation

`Write` never reads the preference store, the write-failure behaviour of
the store, or `last_updated_buffer_offset`; the commutation lemmas below
make this precise: substituting an arbitrary store / marker pair into the
starting state changes the run's final store and marker but nothing else —
in particular not the return value.  Persistence failures are therefore
invisible to the caller, refuting the frozen claim. -/

/-- Substitute the preference store and last-checkpoint marker. -/
@[reducible] def withPL (st : FullState) (pl : Prefs × Int) : FullState :=
  { st with prefs := pl.1, last_updated_buffer_offset := pl.2 }

/-! Counterexample fixtures for C2: a one-operation payload applied with a
store in which every write fails. -/

def manifestC2 : Manifest :=
  ⟨1, [⟨.REPLACE, [], [⟨0, 1⟩], 0, 0, 0, 1⟩], [], none, none⟩

def envC2 : Env := mkTestEnv [7] manifestC2 0

def payloadC2 : List Byte :=
  [0, 0, 0, 0] ++ List.replicate 8 0 ++ [0, 0, 0, 0, 0, 0, 0, 1] ++ [7] ++
  [171]

/-! ### C4: the magic is never examined

The commutation lemmas below substitute the running hash context, the
signed-context snapshot, and the store *contents* (keeping the store's
failure behaviour).  None of them influences control flow, branch
outcomes, the event trace, or the return value of `Write`; since the four
magic bytes reach only the hash, two payloads differing exactly in the
magic are processed in lockstep. -/

/-- Substitute the hash context, the signed-context snapshot and the
preference-store contents. -/
@[reducible] def withHS (st : FullState)
    (h : List Byte × List Byte × List (String × PrefVal)) : FullState :=
  { st with
    hash_calculator := { st.hash_calculator with ctx := h.1 }
    signed_hash_context := h.2.1
    prefs := { st.prefs with store := h.2.2 } }

/-- Delta payload containing one single-byte REPLACE operation, with an
arbitrary non-magic 4-byte prefix: 4 prefix bytes, 8 version bytes, the
big-endian protobuf length 1, the 1-byte protobuf `[7]`, and 1 data
byte. -/
def payloadTailC4 : List Byte :=
  List.replicate 8 0 ++ [0, 0, 0, 0, 0, 0, 0, 1] ++ [7] ++ [171]

def manifestC4 : Manifest :=
  ⟨1, [⟨.REPLACE, [], [⟨0, 1⟩], 0, 0, 0, 1⟩], [], none, none⟩

def envC4 : Env := mkTestEnv [7] manifestC4 0

def stC4 : FullState := initState noFailPrefs zeroDevice zeroDevice

/-- Stream-conservation frame between an old and a new applier state: the
hashed prefix plus the pending buffer is unchanged, the hashed length
advances in lockstep with `buffer_offset`, and the metadata size and
manifest flag are untouched.  Every step of the operation phase of
`Write` satisfies it. -/
def HashFrame (st st2 : FullState) : Prop :=
  st2.hash_calculator.ctx ++ st2.buffer =
    st.hash_calculator.ctx ++ st.buffer ∧
  st2.hash_calculator.ctx.length + st.buffer_offset =
    st.hash_calculator.ctx.length + st2.buffer_offset ∧
  st2.manifest_metadata_size = st.manifest_metadata_size ∧
  st2.manifest_valid = st.manifest_valid

/-- Every chunk of a feeding schedule is accepted: each `Write` call in
the sequence returns its own byte count. -/
def writeAllOk (env : Env) : FullState → List (List Byte) → Prop
  | _, [] => True
  | st, c :: cs => (Write env st c).2.1 = (c.length : Int) ∧
      writeAllOk env (Write env st c).1 cs

/-- Delta payload with a single one-byte BSDIFF operation whose patch
tool exits with code 1 (failure) after having already modified the
target partition. -/
def manifestC1 : Manifest :=
  ⟨1, [⟨.BSDIFF, [⟨0, 1⟩], [⟨0, 1⟩], 1, 1, 0, 1⟩], [], none, none⟩

def envC1 : Env := mkTestEnv [9] manifestC1 1

def payloadC1 : List Byte :=
  [0, 0, 0, 0] ++ List.replicate 8 0 ++ [0, 0, 0, 0, 0, 0, 0, 1] ++
    [9] ++ [5, 6]

def chunksC1 : List (List Byte) := [payloadC1.take 22, payloadC1.drop 22]

def chunksC1w : List (List Byte) := [[0, 0, 0, 0], payloadTailC4]

theorem bsdiffPositionsGo_spec (bs fl : Nat) :
    ∀ (es : List Extent) (ret : List Char) (length : Nat), length ≤ fl →
      bsdiffPositionsGo bs fl es ret length =
        (ret ++ renderEntries (bsdiffEntries bs es (fl - length)),
         length + ((bsdiffEntries bs es (fl - length)).map Prod.snd).sum) := by
  intro es
  induction es with
  | nil => intro ret length _; simp [bsdiffPositionsGo, bsdiffEntries, renderEntries]
  | cons e es ih =>
    intro ret length hle
    have hmin : min (fl - length) (e.num_blocks * bs) =
        min (fl - length) (e.num_blocks * bs) := rfl
    simp only [bsdiffPositionsGo, bsdiffEntries]
    rw [ih _ (length + min (fl - length) (e.num_blocks * bs)) (by omega)]
    have harith : fl - (length + min (fl - length) (e.num_blocks * bs)) =
        fl - length - min (fl - length) (e.num_blocks * bs) := by omega
    simp [renderEntries, renderEntry, bsdiffEntryStart, harith]
    omega

theorem bsdiffEntries_sum (bs : Nat) :
    ∀ (es : List Extent) (budget : Nat),
      ((bsdiffEntries bs es budget).map Prod.snd).sum =
        min budget (extCapacity bs es) := by
  intro es
  induction es with
  | nil => intro budget; simp [bsdiffEntries, extCapacity]
  | cons e es ih =>
    intro budget
    simp only [bsdiffEntries, List.map_cons, List.sum_cons, ih, extCapacity,
      List.map_cons, List.sum_cons]
    have : extCapacity bs es = (es.map (fun e => e.num_blocks * bs)).sum := rfl
    omega

theorem bsdiffEntries_starts (bs : Nat) :
    ∀ (es : List Extent) (budget : Nat),
      (bsdiffEntries bs es budget).map Prod.fst =
        es.map (bsdiffEntryStart bs) := by
  intro es
  induction es with
  | nil => intro budget; simp [bsdiffEntries]
  | cons e es ih => intro budget; simp [bsdiffEntries, ih]

theorem natDecCharsCore_ne_nil (fuel n : Nat) (h : 0 < fuel) :
    natDecCharsCore fuel n ≠ [] := by
  match fuel with
  | fuel + 1 =>
    simp only [natDecCharsCore]
    split <;> simp

theorem natDecCharsCore_getLast (fuel n : Nat) (h : 0 < fuel) :
    (natDecCharsCore fuel n).getLast? = some (digitChar (n % 10)) := by
  match fuel with
  | fuel + 1 =>
    simp only [natDecCharsCore]
    split
    · next hn => simp [Nat.mod_eq_of_lt hn]
    · simp [List.getLast?_append]

theorem digitChar_ne_comma (n : Nat) (h : n < 10) : digitChar n ≠ ',' := by
  interval_cases n <;> decide

theorem natDecChars_getLast_ne_comma (n : Nat) :
    ∀ c, (natDecChars n).getLast? = some c → c ≠ ',' := by
  intro c hc
  rw [natDecChars, natDecCharsCore_getLast _ _ (by omega)] at hc
  cases hc
  exact digitChar_ne_comma _ (Nat.mod_lt _ (by omega))

theorem natDecChars_ne_nil (n : Nat) : natDecChars n ≠ [] :=
  natDecCharsCore_ne_nil _ _ (by omega)

theorem renderEntries_append (l₁ l₂ : List (Int × Nat)) :
    renderEntries (l₁ ++ l₂) = renderEntries l₁ ++ renderEntries l₂ := by
  simp [renderEntries]

theorem renderEntries_dropLast_getLast (l : List (Int × Nat)) :
    ∀ c, (renderEntries l).dropLast.getLast? = some c → c ≠ ',' := by
  induction l using List.reverseRecOn with
  | nil => intro c hc; simp [renderEntries] at hc
  | append_singleton l e _ =>
    intro c hc
    rw [renderEntries_append] at hc
    have he : renderEntries [e] =
        (intDecChars e.1 ++ ':' :: natDecChars e.2) ++ [','] := by
      simp [renderEntries, renderEntry]
    rw [he, ← List.append_assoc, List.dropLast_append_of_ne_nil _ (by simp),
      List.dropLast_single, List.append_nil] at hc
    rw [List.getLast?_append_of_ne_nil _ (by simp),
      List.getLast?_append_of_ne_nil _ (by simp),
      show (':' :: natDecChars e.2) = [':'] ++ natDecChars e.2 from rfl,
      List.getLast?_append_of_ne_nil _ (natDecChars_ne_nil e.2)] at hc
    exact natDecChars_getLast_ne_comma _ _ hc

theorem extentsToBsdiffPositions_final (extents : List Extent) (bs fl : Nat) :
    bsdiffPositionsGo bs fl extents [] 0 =
      (renderEntries (bsdiffEntries bs extents fl),
       min fl (extCapacity bs extents)) := by
  rw [bsdiffPositionsGo_spec bs fl extents [] 0 (by omega)]
  simp [bsdiffEntries_sum]

/-- **C6.** Patch-position string correctness: `ExtentsToBsdiffPositionsString`
succeeds iff the extents' total byte capacity is at least `full_length`; on
success the string renders the emitted `(start, length)` pairs, the emitted
length fields sum to exactly `full_length`, every sparse-hole extent is
emitted with start `-1` and every other extent with start
`start_block * block_size`, and the string has no trailing comma. -/
theorem C6_patch_position_string (extents : List Extent) (bs fl : Nat) :
    ((ExtentsToBsdiffPositionsString extents bs fl).isSome ↔
      fl ≤ extCapacity bs extents) ∧
    (∀ s, ExtentsToBsdiffPositionsString extents bs fl = some s →
      s = String.mk (renderEntries (bsdiffEntries bs extents fl)).dropLast ∧
      ((bsdiffEntries bs extents fl).map Prod.snd).sum = fl ∧
      (bsdiffEntries bs extents fl).map Prod.fst =
        extents.map (fun e => if e.start_block = kSparseHole then (-1 : Int)
          else (e.start_block : Int) * bs) ∧
      s.data.getLast? ≠ some ',') := by
  have hmain : ExtentsToBsdiffPositionsString extents bs fl =
      if min fl (extCapacity bs extents) = fl then
        some (String.mk (renderEntries (bsdiffEntries bs extents fl)).dropLast)
      else none := by
    rw [ExtentsToBsdiffPositionsString, extentsToBsdiffPositions_final]
  constructor
  · rw [hmain]
    split
    · next h =>
      simp only [Option.isSome_some, true_iff]
      exact min_eq_left_iff.mp h
    · next h =>
      simp only [Option.isSome_none, Bool.false_eq_true, false_iff]
      intro hle
      exact h (min_eq_left hle)
  · intro s hs
    rw [hmain] at hs
    split at hs
    · next hmin =>
      cases hs
      refine ⟨rfl, ?_, ?_, ?_⟩
      · rw [bsdiffEntries_sum]; exact hmin
      · rw [bsdiffEntries_starts]
        simp [bsdiffEntryStart]
      · exact fun hc => renderEntries_dropLast_getLast _ _ hc rfl
    · cases hs

/-- Witness for C6 at a concrete input: one extent of one block of size 2
with `full_length = 1` succeeds (capacity 2 ≥ 1) and emits `"0:1"`. -/
theorem C6_patch_position_string_witness :
    (((ExtentsToBsdiffPositionsString [⟨0, 1⟩] 2 1).isSome ↔
      1 ≤ extCapacity 2 [⟨0, 1⟩])) ∧
    (("0:1" : String) =
      String.mk (renderEntries (bsdiffEntries 2 [⟨0, 1⟩] 1)).dropLast ∧
      ((bsdiffEntries 2 [⟨0, 1⟩] 1).map Prod.snd).sum = 1 ∧
      (bsdiffEntries 2 [⟨0, 1⟩] 1).map Prod.fst =
        [⟨0, 1⟩].map (fun e : Extent =>
          if e.start_block = kSparseHole then (-1 : Int)
          else (e.start_block : Int) * 2) ∧
      ("0:1" : String).data.getLast? ≠ some ',') :=
  ⟨(C6_patch_position_string [⟨0, 1⟩] 2 1).1,
   (C6_patch_position_string [⟨0, 1⟩] 2 1).2 "0:1" (by decide)⟩

theorem device_setDevice (st : FullState) (k : Bool) (d : Device) :
    (st.setDevice k d).device k = d := by
  cases k <;> simp [FullState.setDevice, FullState.device]

theorem device_discard (st : FullState) (n : Nat) (k : Bool) :
    (DiscardBufferHeadBytes st n).device k = st.device k := by
  cases k <;> simp [DiscardBufferHeadBytes, FullState.device]

theorem setDevice_block_size (st : FullState) (k : Bool) (d : Device) :
    (st.setDevice k d).block_size = st.block_size := by cases k <;> rfl

theorem setDevice_buffer (st : FullState) (k : Bool) (d : Device) :
    (st.setDevice k d).buffer = st.buffer := by cases k <;> rfl

theorem setDevice_buffer_offset (st : FullState) (k : Bool) (d : Device) :
    (st.setDevice k d).buffer_offset = st.buffer_offset := by cases k <;> rfl

theorem setDevice_next_op (st : FullState) (k : Bool) (d : Device) :
    (st.setDevice k d).next_operation_num = st.next_operation_num := by
  cases k <;> rfl

theorem device_set_buffer_offset (st : FullState) (x : Nat) (k : Bool) :
    ({ st with buffer_offset := x } : FullState).device k = st.device k := by
  cases k <;> rfl

/-- **C8.** BSDIFF tail zeroing: on the successful-patch path, exactly when
`dst_length` is not a multiple of `block_size`, the applier issues one
positioned write of zeros over `[begin_byte, end_byte)` of the target
device, with `end_byte = (last_dst.start_block + last_dst.num_blocks) *
block_size` and `begin_byte = end_byte - (block_size - dst_length mod
block_size)`; when `dst_length` is a multiple of `block_size` no zeroing
write is issued and the device is exactly the patch tool's output. -/
theorem C8_bsdiff_tail_zeroing (env : Env) (st : FullState)
    (op : InstallOperation) (is_kernel : Bool) (ip opos : String)
    (hoff : st.buffer_offset = op.data_offset)
    (hlen : op.data_length ≤ st.buffer.length)
    (hsrc : ExtentsToBsdiffPositionsString op.src_extents st.block_size
      op.src_length = some ip)
    (hdst : ExtentsToBsdiffPositionsString op.dst_extents st.block_size
      op.dst_length = some opos)
    (hrc : (env.bspatch (st.device is_kernel) (st.buffer.take op.data_length)
      ip opos).2 = 0)
    (hne : op.dst_extents ≠ []) :
    (PerformBsdiffOperation env st op is_kernel).2.1 = true ∧
    (op.dst_length % st.block_size ≠ 0 →
      (PerformBsdiffOperation env st op is_kernel).2.2 =
        [.opExec st.next_operation_num,
         .zeroWrite is_kernel (bsdiffBeginByte st.block_size op)
           (bsdiffEndByte st.block_size op)] ∧
      (PerformBsdiffOperation env st op is_kernel).1.device is_kernel =
        pwriteAll
          (env.bspatch (st.device is_kernel) (st.buffer.take op.data_length)
            ip opos).1
          (bsdiffBeginByte st.block_size op)
          (List.replicate
            (bsdiffEndByte st.block_size op - bsdiffBeginByte st.block_size op)
            0)) ∧
    (op.dst_length % st.block_size = 0 →
      (PerformBsdiffOperation env st op is_kernel).2.2 =
        [.opExec st.next_operation_num] ∧
      (PerformBsdiffOperation env st op is_kernel).1.device is_kernel =
        (env.bspatch (st.device is_kernel) (st.buffer.take op.data_length)
          ip opos).1) := by
  rcases hbp : env.bspatch (st.device is_kernel)
    (st.buffer.take op.data_length) ip opos with ⟨dev1, rc⟩
  rw [hbp] at hrc
  simp only at hrc
  subst hrc
  by_cases hmod : op.dst_length % st.block_size = 0
  · simp only [PerformBsdiffOperation, if_neg (not_not_intro hoff),
      if_neg (show ¬st.buffer.length < op.data_length from by omega),
      hsrc, hdst, hbp,
      if_neg (show ¬((0 : Int) ≠ 0) from by simp),
      setDevice_block_size,
      if_neg (not_not_intro hmod)]
    refine ⟨trivial, fun h => absurd hmod h, fun _ => ⟨trivial, ?_⟩⟩
    cases is_kernel <;>
      simp [DiscardBufferHeadBytes, FullState.device, FullState.setDevice]
  · simp only [PerformBsdiffOperation, if_neg (not_not_intro hoff),
      if_neg (show ¬st.buffer.length < op.data_length from by omega),
      hsrc, hdst, hbp,
      if_neg (show ¬((0 : Int) ≠ 0) from by simp),
      setDevice_block_size,
      if_pos hmod]
    refine ⟨trivial, fun _ => ⟨?_, ?_⟩, fun h => absurd h hmod⟩
    · simp [bsdiffEndByte, bsdiffBeginByte]
    · cases is_kernel <;>
        simp [DiscardBufferHeadBytes, FullState.device, FullState.setDevice,
          bsdiffEndByte, bsdiffBeginByte]

/-- Witness for C8 at a concrete input: `dst_length = 1` is not a multiple
of `block_size = 2`, so the zeroing write over `[1, 2)` is issued. -/
theorem C8_bsdiff_tail_zeroing_witness :
    (PerformBsdiffOperation envW stW opW false).2.2 =
      [Event.opExec 0, Event.zeroWrite false 1 2] :=
  ((C8_bsdiff_tail_zeroing envW stW opW false "0:2" "0:1" rfl (by decide)
      (by decide) (by decide) rfl (by decide)).2.1 (by decide)).1

theorem performReplace_events_head (env : Env) (st : FullState)
    (op : InstallOperation) (k : Bool) :
    ∃ t, (PerformReplaceOperation env st op k).2.2 =
      Event.opExec st.next_operation_num :: t := by
  unfold PerformReplaceOperation
  split
  · exact ⟨_, rfl⟩
  split
  · exact ⟨_, rfl⟩
  split
  · exact ⟨_, rfl⟩
  split
  split
  · exact ⟨_, rfl⟩
  · dsimp only
    split
    · exact ⟨_, rfl⟩
    · exact ⟨_, rfl⟩

theorem performMove_events_head (st : FullState)
    (op : InstallOperation) (k : Bool) :
    ∃ t, (PerformMoveOperation st op k).2.2 =
      Event.opExec st.next_operation_num :: t :=
  ⟨[], rfl⟩

theorem performBsdiff_events_head (env : Env) (st : FullState)
    (op : InstallOperation) (k : Bool) :
    ∃ t, (PerformBsdiffOperation env st op k).2.2 =
      Event.opExec st.next_operation_num :: t := by
  unfold PerformBsdiffOperation
  split
  · exact ⟨_, rfl⟩
  split
  · exact ⟨_, rfl⟩
  split
  all_goals try exact ⟨_, rfl⟩
  split
  dsimp only
  split
  · exact ⟨_, rfl⟩
  split
  · exact ⟨_, rfl⟩
  · exact ⟨_, rfl⟩

theorem dispatchOp_events_head (env : Env) (st : FullState)
    (op : InstallOperation) (k : Bool) :
    ∃ t, (dispatchOp env st op k).2.2 =
      Event.opExec st.next_operation_num :: t := by
  unfold dispatchOp
  cases htype : op.type
  · exact performReplace_events_head env st op k
  · exact performReplace_events_head env st op k
  · exact performMove_events_head st op k
  · exact performBsdiff_events_head env st op k

theorem preStep_next (st : FullState) (op : InstallOperation) :
    (preStep st op).1.next_operation_num = st.next_operation_num := by
  unfold preStep
  split <;> rfl

theorem preStep_nonidem (st : FullState) (op : InstallOperation)
    (hsrc : op.src_extents ≠ []) :
    preStep st op =
      ({ st with terminator_blocked := true,
                 prefs := (ResetUpdateProgress st.prefs).1 },
       [Event.termBlock, .prefSetInt kPrefsUpdateStateNextOperation
         kUpdateStateOperationInvalid (ResetUpdateProgress st.prefs).2]) := by
  unfold preStep
  rw [if_neg]
  simp [IsIdempotentOperation, List.length_eq_zero, hsrc]

theorem preStep_idem (st : FullState) (op : InstallOperation)
    (hsrc : op.src_extents = []) :
    preStep st op = (st, []) := by
  unfold preStep
  rw [if_pos]
  simp [IsIdempotentOperation, List.length_eq_zero, hsrc]

theorem loopIter_events_split (env : Env) (st : FullState)
    (op : InstallOperation) (k : Bool) :
    ∃ suffix, (loopIter env st op k).2.2 =
      (preStep st op).2 ++
      (dispatchOp env (preStep st op).1 op k).2.2 ++ suffix := by
  unfold loopIter
  dsimp only
  split
  · exact ⟨_, rfl⟩
  · exact ⟨[], by simp⟩

/-- **C5.** Crash-safety pre-step: for every operation with a non-empty
source-extent list (every non-idempotent operation), the loop iteration
engages the Terminator and persists the INVALID sentinel under the
next-operation key strictly before beginning to execute the operation
(its trace begins `termBlock, prefSetInt next-operation -1, opExec`);
an operation with no source extents is executed without this pre-step
(its trace begins directly with `opExec`). -/
theorem C5_crash_safety_pre_step (env : Env) (st : FullState)
    (op : InstallOperation) (k : Bool) :
    (op.src_extents ≠ [] →
      ∃ ok t, (loopIter env st op k).2.2 =
        Event.termBlock ::
        Event.prefSetInt kPrefsUpdateStateNextOperation
          kUpdateStateOperationInvalid ok ::
        Event.opExec st.next_operation_num :: t) ∧
    (op.src_extents = [] →
      ∃ t, (loopIter env st op k).2.2 =
        Event.opExec st.next_operation_num :: t) := by
  obtain ⟨suffix, hs⟩ := loopIter_events_split env st op k
  obtain ⟨t, ht⟩ := dispatchOp_events_head env (preStep st op).1 op k
  rw [preStep_next] at ht
  constructor
  · intro hsrc
    rw [hs, ht, preStep_nonidem st op hsrc]
    exact ⟨(ResetUpdateProgress st.prefs).2, t ++ suffix, by simp⟩
  · intro hsrc
    rw [hs, ht, preStep_idem st op hsrc]
    exact ⟨t ++ suffix, by simp⟩

/-- Witness for C5 at concrete inputs: the non-idempotent BSDIFF `opW`
gets the Terminator/INVALID pre-step before its `opExec`; the idempotent
REPLACE `opRW` starts executing with no preceding reset. -/
theorem C5_crash_safety_pre_step_witness :
    (∃ ok t, (loopIter envW stW opW false).2.2 =
      Event.termBlock ::
      Event.prefSetInt kPrefsUpdateStateNextOperation
        kUpdateStateOperationInvalid ok ::
      Event.opExec stW.next_operation_num :: t) ∧
    (∃ t, (loopIter envW stW opRW false).2.2 =
      Event.opExec stW.next_operation_num :: t) :=
  ⟨(C5_crash_safety_pre_step envW stW opW false).1 (by decide),
   (C5_crash_safety_pre_step envW stW opRW false).2 rfl⟩

/-- **C10.** Close atomicity on a non-empty buffer: `Close` then returns
`-1` and has no effect at all (state unchanged, no descriptor closed, hash
not finalized).  With an empty buffer, `Close` closes both descriptors,
finalizes the hash, clears the path and poisons the rootfs descriptor slot
with `-2`, after which every `Open` returns a negative value. -/
theorem C10_close_atomicity (env : Env) (st : FullState) :
    (st.buffer ≠ [] → Close env st = (st, -1, [])) ∧
    (st.buffer = [] →
      (Close env st).1.fd = -2 ∧
      (Close env st).1.path = "" ∧
      (Close env st).1.hash_calculator.hashStr =
        env.shaB64 st.hash_calculator.ctx ∧
      (Close env st).2.2 = [.closeFd st.kernel_fd, .closeFd st.fd] ∧
      (∀ (env' : Env) (p : String), (Open env' (Close env st).1 p).2 < 0)) := by
  constructor
  · intro hbuf
    rw [Close, if_pos hbuf]
  · intro hbuf
    have hclose1 : (Close env st).1 =
        { st with
          hash_calculator :=
            { st.hash_calculator with
              hashStr := env.shaB64 st.hash_calculator.ctx }
          fd := -2
          path := "" } := by
      rw [Close, if_neg (not_not_intro hbuf)]
    have hclose2 : (Close env st).2.2 =
        [.closeFd st.kernel_fd, .closeFd st.fd] := by
      rw [Close, if_neg (not_not_intro hbuf)]
    refine ⟨by rw [hclose1], by rw [hclose1], by rw [hclose1], hclose2, ?_⟩
    intro env' p
    rw [hclose1]
    simp only [Open, OpenFile]
    rw [if_pos (show (-2 : Int) ≠ -1 from by norm_num)]
    norm_num [EINVAL]

/-- Witness for C10 at concrete states: a one-byte buffer makes `Close` a
no-op returning `-1`; with an empty buffer the poisoned descriptor makes a
subsequent `Open` fail. -/
theorem C10_close_atomicity_witness :
    (Close envW { stW with buffer := [1] } =
      ({ stW with buffer := [1] }, -1, [])) ∧
    (Close envW stW).1.fd = -2 ∧
    (Open envW (Close envW stW).1 "/dev/sda1").2 < 0 :=
  ⟨(C10_close_atomicity envW { stW with buffer := [1] }).1 (by simp),
   ((C10_close_atomicity envW stW).2 rfl).1,
   ((C10_close_atomicity envW stW).2 rfl).2.2.2.2 envW "/dev/sda1"⟩

/-- Counterexample to C7 as frozen: in the fresh state the accumulated
download hash is the empty string and equals the expected hash `""`, and
`expected_size = manifest_metadata_size + buffer_offset = 0`, and the
public key file does not exist — yet `VerifyPayload` returns `false`
(the code's non-emptiness guard `TEST_AND_RETURN_FALSE(!empty)` fires), so
the claimed "returns true iff hash and size match" equivalence fails. -/
theorem C7_counterexample :
    VerifyPayload envW stW "" "" 0 = false ∧
    stW.hash_calculator.hashStr = "" ∧
    (0 : Nat) = stW.manifest_metadata_size + stW.buffer_offset ∧
    envW.fileExists
      (if ("" : String) = "" then kUpdatePayloadPublicKeyPath else "") =
      false := by
  refine ⟨?_, rfl, rfl, rfl⟩
  decide

/-- **C7 (amended).** With a missing public key file, `VerifyPayload`
returns true iff the accumulated download hash is non-empty, equals
`expected_hash`, and `expected_size = manifest_metadata_size +
buffer_offset`; moreover the hash and size checks run before (and
regardless of) the key-existence check: a mismatch — or an empty hash —
returns false for every key path. -/
theorem C7_verify_payload_missing_key (env : Env) (st : FullState)
    (pk eh : String) (es : Nat)
    (hkey : env.fileExists
      (if pk = "" then kUpdatePayloadPublicKeyPath else pk) = false) :
    (VerifyPayload env st pk eh es = true ↔
      st.hash_calculator.hashStr ≠ "" ∧ st.hash_calculator.hashStr = eh ∧
      es = st.manifest_metadata_size + st.buffer_offset) ∧
    (∀ pk' : String,
      st.hash_calculator.hashStr = "" ∨ st.hash_calculator.hashStr ≠ eh ∨
        es ≠ st.manifest_metadata_size + st.buffer_offset →
      VerifyPayload env st pk' eh es = false) := by
  constructor
  · by_cases h0 : st.hash_calculator.hashStr = ""
    · simp only [VerifyPayload]
      rw [if_pos h0]
      simp [h0]
    · by_cases h1 : st.hash_calculator.hashStr = eh
      · by_cases h2 : es = st.manifest_metadata_size + st.buffer_offset
        · have hv : VerifyPayload env st pk eh es = true := by
            simp only [VerifyPayload]
            rw [if_neg h0, if_neg (not_not_intro h1),
              if_neg (not_not_intro h2), if_pos (by simp [hkey])]
          rw [hv]
          simp only [true_iff]
          exact ⟨h0, h1, h2⟩
        · simp only [VerifyPayload]
          rw [if_neg h0, if_neg (not_not_intro h1), if_pos h2]
          simp [h2]
      · simp only [VerifyPayload]
        rw [if_neg h0, if_pos h1]
        simp [h1]
  · intro pk' hmis
    by_cases h0 : st.hash_calculator.hashStr = ""
    · simp only [VerifyPayload]
      rw [if_pos h0]
    · rcases hmis with hm | hm | hm
      · exact absurd hm h0
      · simp only [VerifyPayload]
        rw [if_neg h0, if_pos hm]
      · by_cases h1 : st.hash_calculator.hashStr = eh
        · simp only [VerifyPayload]
          rw [if_neg h0, if_neg (not_not_intro h1), if_pos hm]
        · simp only [VerifyPayload]
          rw [if_neg h0, if_pos h1]

/-- Witness for C7 (amended) at a concrete input: with the key file
missing, a non-empty matching hash and the exact size make `VerifyPayload`
succeed. -/
theorem C7_verify_payload_missing_key_witness :
    VerifyPayload envW stV "" "digest" 0 = true :=
  ((C7_verify_payload_missing_key envW stV "" "digest" 0 rfl).1).mpr
    ⟨by decide, rfl, rfl⟩

theorem opLoop_blocked (env : Env) (fuel : Nat) (st : FullState)
    (h : CanPerformInstallOperation st
      (opAt st.manifest st.next_operation_num) = false ∨
      totalOps st.manifest ≤ st.next_operation_num) :
    opLoop env fuel st = (st, true, []) := by
  match fuel with
  | 0 => rfl
  | fuel + 1 =>
    rw [opLoop]
    rcases h with hcp | hle
    · split
      · rw [if_neg (by simp [hcp])]
      · rfl
    · rw [if_neg (by omega)]

/-- **C3 (amended).** Stream regression stalls but is not surfaced: when
the manifest is valid and the next pending operation is not a MOVE and has
`data_offset < buffer_offset`, `CanPerformInstallOperation` returns false,
so the `Write` call executes no operation at all and returns the accepted
byte count (a non-negative value), leaving the state unchanged except for
the appended bytes. -/
theorem C3_stream_regression_stalls (env : Env) (st : FullState)
    (bytes : List Byte)
    (hmv : st.manifest_valid = true)
    (htype : (opAt st.manifest st.next_operation_num).type ≠ .MOVE)
    (hoff : (opAt st.manifest st.next_operation_num).data_offset <
      st.buffer_offset) :
    CanPerformInstallOperation st
      (opAt st.manifest st.next_operation_num) = false ∧
    Write env st bytes = (addBytes bytes st, (bytes.length : Int), []) ∧
    0 ≤ (bytes.length : Int) := by
  have hcp : CanPerformInstallOperation st
      (opAt st.manifest st.next_operation_num) = false := by
    unfold CanPerformInstallOperation
    rw [if_neg htype, if_pos hoff]
  have hcp' : CanPerformInstallOperation (addBytes bytes st)
      (opAt (addBytes bytes st).manifest
        (addBytes bytes st).next_operation_num) = false := by
    dsimp only [addBytes]
    unfold CanPerformInstallOperation
    rw [if_neg htype, if_pos hoff]
  refine ⟨hcp, ?_, by omega⟩
  unfold Write
  dsimp only
  rw [if_pos (show (addBytes bytes st).manifest_valid = true from hmv)]
  dsimp only
  rw [opLoop_blocked env _ _ (Or.inl hcp')]
  simp

/-- Counterexample to C3 as frozen: feeding `payloadC3` to a fresh applier
executes the first operation (advancing `buffer_offset` to 2) and leaves a
pending non-MOVE operation with `data_offset = 0 < 2`; the `Write` call
returns 23 — the accepted byte count, not a negative errno — and a further
`Write` of one byte at the regressed state returns 1, again positive. -/
theorem C3_counterexample :
    (Write envC3 (initState noFailPrefs zeroDevice zeroDevice)
      payloadC3).2.1 = 23 ∧
    (Write envC3 (initState noFailPrefs zeroDevice zeroDevice)
      payloadC3).1.manifest_valid = true ∧
    (Write envC3 (initState noFailPrefs zeroDevice zeroDevice)
      payloadC3).1.next_operation_num = 1 ∧
    (opAt (Write envC3 (initState noFailPrefs zeroDevice zeroDevice)
      payloadC3).1.manifest 1).type ≠ .MOVE ∧
    (opAt (Write envC3 (initState noFailPrefs zeroDevice zeroDevice)
      payloadC3).1.manifest 1).data_offset <
      (Write envC3 (initState noFailPrefs zeroDevice zeroDevice)
        payloadC3).1.buffer_offset ∧
    (Write envC3 (Write envC3 (initState noFailPrefs zeroDevice zeroDevice)
      payloadC3).1 [7]).2.1 = 1 := by
  decide

/-- Witness for C3 (amended) at the concrete regressed state: a further
one-byte `Write` performs nothing and returns 1. -/
theorem C3_stream_regression_stalls_witness :
    CanPerformInstallOperation stC3
      (opAt stC3.manifest stC3.next_operation_num) = false ∧
    Write envC3 stC3 [7] = (addBytes [7] stC3, (1 : Int), []) ∧
    (0 : Int) ≤ 1 := by
  have h := C3_stream_regression_stalls envC3 stC3 [7] (by decide) (by decide)
    (by decide)
  exact h

theorem discard_pl (st : FullState) (pl : Prefs × Int) (n : Nat) :
    DiscardBufferHeadBytes (withPL st pl) n =
      withPL (DiscardBufferHeadBytes st n) pl := rfl

theorem setDevice_pl (st : FullState) (pl : Prefs × Int) (k : Bool)
    (d : Device) :
    (withPL st pl).setDevice k d = withPL (st.setDevice k d) pl := by
  cases k <;> rfl

theorem extract_pl (st : FullState) (pl : Prefs × Int)
    (op : InstallOperation) :
    ∃ pl2,
      (ExtractSignatureMessage (withPL st pl) op).1 =
        withPL (ExtractSignatureMessage st op).1 pl2 ∧
      (ExtractSignatureMessage (withPL st pl) op).2.1 =
        (ExtractSignatureMessage st op).2.1 := by
  unfold ExtractSignatureMessage withPL
  dsimp only
  split
  · exact ⟨pl, rfl, rfl⟩
  split
  · exact ⟨pl, rfl, rfl⟩
  split
  · exact ⟨pl, rfl, rfl⟩
  split
  · exact ⟨pl, rfl, rfl⟩
  split
  · exact ⟨pl, rfl, rfl⟩
  exact ⟨((pl.1.setCtx kPrefsUpdateStateSignedSHA256Context
    st.hash_calculator.ctx).1, pl.2), rfl, rfl⟩

theorem performReplace_pl (env : Env) (st : FullState) (pl : Prefs × Int)
    (op : InstallOperation) (k : Bool) :
    ∃ pl2,
      (PerformReplaceOperation env (withPL st pl) op k).1 =
        withPL (PerformReplaceOperation env st op k).1 pl2 ∧
      (PerformReplaceOperation env (withPL st pl) op k).2.1 =
        (PerformReplaceOperation env st op k).2.1 := by
  obtain ⟨pl2, hE1, hE2⟩ := extract_pl st pl op
  unfold PerformReplaceOperation
  dsimp only
  split
  · exact ⟨pl, rfl, rfl⟩
  split
  · exact ⟨pl, rfl, rfl⟩
  split
  · exact ⟨pl, rfl, rfl⟩
  rw [hE1]
  dsimp only
  split
  · exact ⟨pl2, rfl, rfl⟩
  · rw [setDevice_pl]
    exact ⟨pl2, rfl, rfl⟩

theorem device_pl (st : FullState) (pl : Prefs × Int) (k : Bool) :
    (withPL st pl).device k = st.device k := by
  cases k <;> rfl

theorem performMove_pl (st : FullState) (pl : Prefs × Int)
    (op : InstallOperation) (k : Bool) :
    (PerformMoveOperation (withPL st pl) op k).1 =
      withPL (PerformMoveOperation st op k).1 pl ∧
    (PerformMoveOperation (withPL st pl) op k).2.1 =
      (PerformMoveOperation st op k).2.1 := by
  unfold PerformMoveOperation
  dsimp only
  rw [device_pl, setDevice_pl]
  exact ⟨rfl, rfl⟩

theorem performBsdiff_pl (env : Env) (st : FullState) (pl : Prefs × Int)
    (op : InstallOperation) (k : Bool) :
    (PerformBsdiffOperation env (withPL st pl) op k).1 =
      withPL (PerformBsdiffOperation env st op k).1 pl ∧
    (PerformBsdiffOperation env (withPL st pl) op k).2.1 =
      (PerformBsdiffOperation env st op k).2.1 := by
  unfold PerformBsdiffOperation
  dsimp only
  split
  · exact ⟨rfl, rfl⟩
  split
  · exact ⟨rfl, rfl⟩
  rw [device_pl]
  split
  · try dsimp only
    split
    · rw [setDevice_pl]
      exact ⟨rfl, rfl⟩
    · rw [setDevice_pl]
      try dsimp only
      split
      · rw [setDevice_pl]
        exact ⟨rfl, rfl⟩
      · exact ⟨rfl, rfl⟩
  · exact ⟨rfl, rfl⟩

theorem dispatchOp_pl (env : Env) (st : FullState) (pl : Prefs × Int)
    (op : InstallOperation) (k : Bool) :
    ∃ pl2,
      (dispatchOp env (withPL st pl) op k).1 =
        withPL (dispatchOp env st op k).1 pl2 ∧
      (dispatchOp env (withPL st pl) op k).2.1 =
        (dispatchOp env st op k).2.1 := by
  unfold dispatchOp
  cases op.type
  · exact performReplace_pl env st pl op k
  · exact performReplace_pl env st pl op k
  · exact ⟨pl, (performMove_pl st pl op k).1, (performMove_pl st pl op k).2⟩
  · exact ⟨pl, (performBsdiff_pl env st pl op k).1,
      (performBsdiff_pl env st pl op k).2⟩

theorem preStep_pl (st : FullState) (pl : Prefs × Int)
    (op : InstallOperation) :
    ∃ pl2, (preStep (withPL st pl) op).1 = withPL (preStep st op).1 pl2 := by
  unfold preStep
  dsimp only
  split
  · exact ⟨pl, rfl⟩
  · exact ⟨((ResetUpdateProgress pl.1).1, pl.2), rfl⟩

theorem checkpoint_pl (st : FullState) (pl : Prefs × Int) :
    ∃ pl2, (CheckpointUpdateProgress (withPL st pl)).1 =
      withPL (CheckpointUpdateProgress st).1 pl2 := by
  refine ⟨((CheckpointUpdateProgress (withPL st pl)).1.prefs,
    (CheckpointUpdateProgress (withPL st pl)).1.last_updated_buffer_offset),
    ?_⟩
  unfold CheckpointUpdateProgress
  dsimp only
  repeat' split
  all_goals rfl

theorem canPerform_pl (st : FullState) (pl : Prefs × Int)
    (op : InstallOperation) :
    CanPerformInstallOperation (withPL st pl) op =
      CanPerformInstallOperation st op := rfl

theorem addBytes_pl (bytes : List Byte) (st : FullState) (pl : Prefs × Int) :
    addBytes bytes (withPL st pl) = withPL (addBytes bytes st) pl := rfl

theorem loopIter_pl (env : Env) (st : FullState) (pl : Prefs × Int)
    (op : InstallOperation) (k : Bool) :
    ∃ pl2,
      (loopIter env (withPL st pl) op k).1 =
        withPL (loopIter env st op k).1 pl2 ∧
      (loopIter env (withPL st pl) op k).2.1 =
        (loopIter env st op k).2.1 := by
  obtain ⟨plA, hA⟩ := preStep_pl st pl op
  obtain ⟨plB, hB1, hB2⟩ := dispatchOp_pl env (preStep st op).1 plA op k
  unfold loopIter
  dsimp only
  rw [hA, hB1, hB2]
  split
  · obtain ⟨plC, hC⟩ := checkpoint_pl
      { (dispatchOp env (preStep st op).1 op k).1 with
        next_operation_num :=
          (dispatchOp env (preStep st op).1 op k).1.next_operation_num + 1 }
      plB
    have hC' : (CheckpointUpdateProgress
        { withPL (dispatchOp env (preStep st op).1 op k).1 plB with
          next_operation_num :=
            (withPL (dispatchOp env (preStep st op).1 op k).1
              plB).next_operation_num + 1 }).1 =
        withPL (CheckpointUpdateProgress
          { (dispatchOp env (preStep st op).1 op k).1 with
            next_operation_num :=
              (dispatchOp env (preStep st op).1 op k).1.next_operation_num +
                1 }).1 plC := hC
    rw [hC']
    exact ⟨plC, rfl, rfl⟩
  · exact ⟨plB, rfl, rfl⟩

theorem opLoop_pl (env : Env) (fuel : Nat) :
    ∀ (st : FullState) (pl : Prefs × Int),
    ∃ pl2,
      (opLoop env fuel (withPL st pl)).1 =
        withPL (opLoop env fuel st).1 pl2 ∧
      (opLoop env fuel (withPL st pl)).2.1 = (opLoop env fuel st).2.1 := by
  induction fuel with
  | zero => exact fun st pl => ⟨pl, rfl, rfl⟩
  | succ fuel ih =>
    intro st pl
    rw [opLoop, opLoop]
    dsimp only
    split
    · rw [canPerform_pl]
      split
      · obtain ⟨plI, hI1, hI2⟩ := loopIter_pl env st pl
          (opAt st.manifest st.next_operation_num)
          (decide (st.manifest.install_operations.length ≤
            st.next_operation_num))
        rw [hI1, hI2]
        split
        · obtain ⟨plR, hR1, hR2⟩ := ih
            (loopIter env st (opAt st.manifest st.next_operation_num)
              (decide (st.manifest.install_operations.length ≤
                st.next_operation_num))).1 plI
          rw [hR1, hR2]
          exact ⟨plR, rfl, rfl⟩
        · exact ⟨plI, rfl, rfl⟩
      · exact ⟨pl, rfl, rfl⟩
    · exact ⟨pl, rfl, rfl⟩

theorem tryParse_pl (env : Env) (st : FullState) (pl : Prefs × Int) :
    tryParseManifest env (withPL st pl) =
      match tryParseManifest env st with
      | .needMore => .needMore
      | .err => .err
      | .ok s _ =>
        .ok (withPL s ((pl.1.setInt64 kPrefsManifestMetadataSize
            s.manifest_metadata_size).1, pl.2))
          [.prefSetInt kPrefsManifestMetadataSize s.manifest_metadata_size
            (pl.1.setInt64 kPrefsManifestMetadataSize
              s.manifest_metadata_size).2] := by
  unfold tryParseManifest
  dsimp only
  split
  · rfl
  split
  · rfl
  split
  · rfl
  · rfl

theorem write_pl (env : Env) (st : FullState) (pl : Prefs × Int)
    (bytes : List Byte) :
    ∃ pl2,
      (Write env (withPL st pl) bytes).1 =
        withPL (Write env st bytes).1 pl2 ∧
      (Write env (withPL st pl) bytes).2.1 = (Write env st bytes).2.1 := by
  unfold Write
  dsimp only
  rw [addBytes_pl,
    show (withPL (addBytes bytes st) pl).manifest_valid =
      (addBytes bytes st).manifest_valid from rfl]
  by_cases hv : (addBytes bytes st).manifest_valid = true
  · rw [if_pos hv, if_pos hv]
    dsimp only
    rw [show totalOps (withPL (addBytes bytes st) pl).manifest =
        totalOps (addBytes bytes st).manifest from rfl,
      show (withPL (addBytes bytes st) pl).next_operation_num =
        (addBytes bytes st).next_operation_num from rfl]
    obtain ⟨plR, hR1, hR2⟩ := opLoop_pl env
      (totalOps (addBytes bytes st).manifest -
        (addBytes bytes st).next_operation_num) (addBytes bytes st) pl
    rw [hR1, hR2]
    exact ⟨plR, rfl, rfl⟩
  · rw [if_neg hv, if_neg hv, tryParse_pl]
    rcases hp : tryParseManifest env (addBytes bytes st) with _ | _ | ⟨s, evs⟩
    · dsimp only
      exact ⟨pl, rfl, rfl⟩
    · dsimp only
      exact ⟨pl, rfl, rfl⟩
    · dsimp only
      rw [show totalOps (withPL s ((pl.1.setInt64 kPrefsManifestMetadataSize
            s.manifest_metadata_size).1, pl.2)).manifest =
          totalOps s.manifest from rfl,
        show (withPL s ((pl.1.setInt64 kPrefsManifestMetadataSize
            s.manifest_metadata_size).1, pl.2)).next_operation_num =
          s.next_operation_num from rfl]
      obtain ⟨plR, hR1, hR2⟩ := opLoop_pl env
        (totalOps s.manifest - s.next_operation_num) s
        ((pl.1.setInt64 kPrefsManifestMetadataSize
          s.manifest_metadata_size).1, pl.2)
      rw [hR1, hR2]
      exact ⟨plR, rfl, rfl⟩

theorem set_failKeys (p : Prefs) (k : String) (v : PrefVal) :
    (p.set k v).1.failKeys = p.failKeys := by
  unfold Prefs.set
  split <;> rfl

/-- **C2 (amended).** Persistence failures do not propagate out of `Write`:
a failing preference-store write during per-operation checkpointing makes
`CheckpointUpdateProgress` return false, but line 251 of `Write` discards
that result — the value returned by `Write`, and the entire state other
than the preference store and the last-checkpointed-offset marker, are
identical to a run whose store never fails.  (The frozen claim — that the
`Write` call in progress returns a negative value — is refuted by
`C2_counterexample`.) -/
theorem C2_persistence_failure_ignored :
    (∀ st : FullState,
      st.prefs.failKeys kPrefsUpdateStateSHA256Context = true →
      st.last_updated_buffer_offset ≠ (st.buffer_offset : Int) →
      (CheckpointUpdateProgress st).2.1 = false) ∧
    (∀ (env : Env) (st : FullState) (pl : Prefs × Int) (bytes : List Byte),
      ∃ pl2,
        (Write env (withPL st pl) bytes).1 =
          withPL (Write env st bytes).1 pl2 ∧
        (Write env (withPL st pl) bytes).2.1 =
          (Write env st bytes).2.1) := by
  constructor
  · intro st hf hlu
    unfold CheckpointUpdateProgress
    dsimp only
    rw [if_pos hlu]
    have hok2 : ((ResetUpdateProgress st.prefs).1.setCtx
        kPrefsUpdateStateSHA256Context st.hash_calculator.ctx).2 = false := by
      have hfk : (ResetUpdateProgress st.prefs).1.failKeys = st.prefs.failKeys :=
        set_failKeys st.prefs kPrefsUpdateStateNextOperation _
      unfold Prefs.setCtx Prefs.set
      rw [hfk, if_pos hf]
    rw [hok2]
    simp
  · exact write_pl

/-- Counterexample to C2 as frozen: with a store in which every write
fails, the checkpoint of the performed operation attempts the SHA-256
context write and it fails (the event trace records it), yet the `Write`
call returns 22 — the accepted byte count — not a negative value. -/
theorem C2_counterexample :
    (Write envC2 (initState allFailPrefs zeroDevice zeroDevice)
      payloadC2).2.1 = 22 ∧
    Event.prefSet kPrefsUpdateStateSHA256Context false ∈
      (Write envC2 (initState allFailPrefs zeroDevice zeroDevice)
        payloadC2).2.2 := by
  decide

/-- Witness for C2 (amended) at a concrete state: all-failing store,
marker differing from the offset — the checkpoint reports failure; and a
`Write` on the same state with a substituted store returns the same value
as the original. -/
theorem C2_persistence_failure_ignored_witness :
    (CheckpointUpdateProgress { stW with prefs := allFailPrefs }).2.1 =
      false ∧
    ∃ pl2,
      (Write envW (withPL stW (allFailPrefs, 5)) []).1 =
        withPL (Write envW stW []).1 pl2 ∧
      (Write envW (withPL stW (allFailPrefs, 5)) []).2.1 =
        (Write envW stW []).2.1 :=
  ⟨C2_persistence_failure_ignored.1 _ rfl (by decide),
   C2_persistence_failure_ignored.2 envW stW (allFailPrefs, 5) []⟩

theorem discard_hs (st : FullState)
    (h : List Byte × List Byte × List (String × PrefVal)) (n : Nat) :
    DiscardBufferHeadBytes (withHS st h) n =
      withHS (DiscardBufferHeadBytes st n)
        (h.1 ++ (st.buffer.take n), h.2.1, h.2.2) := rfl

theorem setDevice_hs (st : FullState)
    (h : List Byte × List Byte × List (String × PrefVal)) (k : Bool)
    (d : Device) :
    (withHS st h).setDevice k d = withHS (st.setDevice k d) h := by
  cases k <;> rfl

theorem device_hs (st : FullState)
    (h : List Byte × List Byte × List (String × PrefVal)) (k : Bool) :
    (withHS st h).device k = st.device k := by
  cases k <;> rfl

theorem extract_hs (st : FullState)
    (h : List Byte × List Byte × List (String × PrefVal))
    (op : InstallOperation) :
    ∃ h2,
      (ExtractSignatureMessage (withHS st h) op).1 =
        withHS (ExtractSignatureMessage st op).1 h2 ∧
      (ExtractSignatureMessage (withHS st h) op).2.1 =
        (ExtractSignatureMessage st op).2.1 ∧
      (ExtractSignatureMessage (withHS st h) op).2.2 =
        (ExtractSignatureMessage st op).2.2 := by
  unfold ExtractSignatureMessage
  dsimp only
  split
  · exact ⟨h, rfl, rfl, rfl⟩
  split
  · exact ⟨h, rfl, rfl, rfl⟩
  split
  · exact ⟨h, rfl, rfl, rfl⟩
  split
  · exact ⟨h, rfl, rfl, rfl⟩
  split
  · exact ⟨h, rfl, rfl, rfl⟩
  unfold Prefs.setCtx Prefs.set
  dsimp only
  split
  · exact ⟨(h.1, h.1, h.2.2), rfl, rfl, rfl⟩
  · exact ⟨(h.1, h.1,
      (kPrefsUpdateStateSignedSHA256Context, PrefVal.hctx h.1) :: h.2.2),
      rfl, rfl, rfl⟩

theorem performReplace_hs (env : Env) (st : FullState)
    (h : List Byte × List Byte × List (String × PrefVal))
    (op : InstallOperation) (k : Bool) :
    ∃ h2,
      (PerformReplaceOperation env (withHS st h) op k).1 =
        withHS (PerformReplaceOperation env st op k).1 h2 ∧
      (PerformReplaceOperation env (withHS st h) op k).2.1 =
        (PerformReplaceOperation env st op k).2.1 ∧
      (PerformReplaceOperation env (withHS st h) op k).2.2 =
        (PerformReplaceOperation env st op k).2.2 := by
  obtain ⟨h2, hE1, hE2, hE3⟩ := extract_hs st h op
  unfold PerformReplaceOperation
  dsimp only
  split
  · exact ⟨h, rfl, rfl, rfl⟩
  split
  · exact ⟨h, rfl, rfl, rfl⟩
  split
  · exact ⟨h, rfl, rfl, rfl⟩
  rw [hE1, hE3]
  dsimp only
  split
  · exact ⟨h2, rfl, rfl, rfl⟩
  · rw [device_hs, setDevice_hs, setDevice_buffer]
    exact ⟨(h2.1 ++ ((ExtractSignatureMessage st op).1.buffer.take
      op.data_length), h2.2.1, h2.2.2), rfl, rfl, rfl⟩

theorem performMove_hs (st : FullState)
    (h : List Byte × List Byte × List (String × PrefVal))
    (op : InstallOperation) (k : Bool) :
    (PerformMoveOperation (withHS st h) op k).1 =
      withHS (PerformMoveOperation st op k).1 h ∧
    (PerformMoveOperation (withHS st h) op k).2.1 =
      (PerformMoveOperation st op k).2.1 ∧
    (PerformMoveOperation (withHS st h) op k).2.2 =
      (PerformMoveOperation st op k).2.2 := by
  unfold PerformMoveOperation
  dsimp only
  rw [device_hs, setDevice_hs]
  exact ⟨rfl, rfl, rfl⟩

theorem performBsdiff_hs (env : Env) (st : FullState)
    (h : List Byte × List Byte × List (String × PrefVal))
    (op : InstallOperation) (k : Bool) :
    ∃ h2,
      (PerformBsdiffOperation env (withHS st h) op k).1 =
        withHS (PerformBsdiffOperation env st op k).1 h2 ∧
      (PerformBsdiffOperation env (withHS st h) op k).2.1 =
        (PerformBsdiffOperation env st op k).2.1 ∧
      (PerformBsdiffOperation env (withHS st h) op k).2.2 =
        (PerformBsdiffOperation env st op k).2.2 := by
  unfold PerformBsdiffOperation
  dsimp only
  split
  · exact ⟨h, rfl, rfl, rfl⟩
  split
  · exact ⟨h, rfl, rfl, rfl⟩
  rw [device_hs]
  split
  · try dsimp only
    split
    · rw [setDevice_hs]
      exact ⟨h, rfl, rfl, rfl⟩
    · rw [setDevice_hs]
      try dsimp only
      split
      · rw [setDevice_hs]
        simp only [setDevice_buffer]
        refine ⟨(h.1 ++ (st.buffer.take op.data_length), h.2.1, h.2.2),
          ?_, ?_, ?_⟩
        all_goals trivial
      · simp only [setDevice_buffer]
        refine ⟨(h.1 ++ (st.buffer.take op.data_length), h.2.1, h.2.2),
          ?_, ?_, ?_⟩
        all_goals trivial
  · exact ⟨h, rfl, rfl, rfl⟩

theorem dispatchOp_hs (env : Env) (st : FullState)
    (h : List Byte × List Byte × List (String × PrefVal))
    (op : InstallOperation) (k : Bool) :
    ∃ h2,
      (dispatchOp env (withHS st h) op k).1 =
        withHS (dispatchOp env st op k).1 h2 ∧
      (dispatchOp env (withHS st h) op k).2.1 =
        (dispatchOp env st op k).2.1 ∧
      (dispatchOp env (withHS st h) op k).2.2 =
        (dispatchOp env st op k).2.2 := by
  unfold dispatchOp
  cases op.type
  · exact performReplace_hs env st h op k
  · exact performReplace_hs env st h op k
  · exact ⟨h, (performMove_hs st h op k).1, (performMove_hs st h op k).2.1,
      (performMove_hs st h op k).2.2⟩
  · exact performBsdiff_hs env st h op k

theorem preStep_hs (st : FullState)
    (h : List Byte × List Byte × List (String × PrefVal))
    (op : InstallOperation) :
    ∃ h2, (preStep (withHS st h) op).1 = withHS (preStep st op).1 h2 ∧
      (preStep (withHS st h) op).2 = (preStep st op).2 := by
  unfold preStep
  dsimp only
  split
  · exact ⟨h, rfl, rfl⟩
  · unfold ResetUpdateProgress Prefs.setInt64 Prefs.set
    dsimp only
    split
    · exact ⟨h, rfl, rfl⟩
    · exact ⟨(h.1, h.2.1, (kPrefsUpdateStateNextOperation,
        PrefVal.int kUpdateStateOperationInvalid) :: h.2.2), rfl, rfl⟩

theorem checkpoint_hs (st : FullState)
    (h : List Byte × List Byte × List (String × PrefVal)) :
    ∃ h2, (CheckpointUpdateProgress (withHS st h)).1 =
      withHS (CheckpointUpdateProgress st).1 h2 ∧
      (CheckpointUpdateProgress (withHS st h)).2.2 =
        (CheckpointUpdateProgress st).2.2 := by
  refine ⟨(h.1, h.2.1,
    (CheckpointUpdateProgress (withHS st h)).1.prefs.store), ?_, ?_⟩
  · unfold CheckpointUpdateProgress ResetUpdateProgress Prefs.setInt64
      Prefs.setCtx Prefs.set
    dsimp only
    by_cases hlu : st.last_updated_buffer_offset ≠ (st.buffer_offset : Int)
    · rw [if_pos hlu, if_pos hlu]
      cases hf1 : st.prefs.failKeys kPrefsUpdateStateNextOperation <;>
        cases hf2 : st.prefs.failKeys kPrefsUpdateStateSHA256Context <;>
          cases hf3 : st.prefs.failKeys kPrefsUpdateStateNextDataOffset <;>
            simp only [hf1, hf2, hf3, Bool.false_eq_true, eq_self_iff_true,
              if_true, if_false, not_true, not_false_iff, ite_true, ite_false,
              not_false_eq_true, not_true_eq_false]
      all_goals rfl
    · rw [if_neg hlu, if_neg hlu]
      cases hf1 : st.prefs.failKeys kPrefsUpdateStateNextOperation <;>
        simp only [hf1, Bool.false_eq_true, eq_self_iff_true,
          if_true, if_false, not_true, not_false_iff, ite_true, ite_false,
          not_false_eq_true, not_true_eq_false]
      all_goals rfl
  · unfold CheckpointUpdateProgress ResetUpdateProgress Prefs.setInt64
      Prefs.setCtx Prefs.set
    dsimp only
    by_cases hlu : st.last_updated_buffer_offset ≠ (st.buffer_offset : Int)
    · rw [if_pos hlu, if_pos hlu]
      cases hf1 : st.prefs.failKeys kPrefsUpdateStateNextOperation <;>
        cases hf2 : st.prefs.failKeys kPrefsUpdateStateSHA256Context <;>
          cases hf3 : st.prefs.failKeys kPrefsUpdateStateNextDataOffset <;>
            simp only [hf1, hf2, hf3, Bool.false_eq_true, eq_self_iff_true,
              if_true, if_false, not_true, not_false_iff, ite_true, ite_false,
              not_false_eq_true, not_true_eq_false]
      all_goals rfl
    · rw [if_neg hlu, if_neg hlu]
      cases hf1 : st.prefs.failKeys kPrefsUpdateStateNextOperation <;>
        simp only [hf1, Bool.false_eq_true, eq_self_iff_true,
          if_true, if_false, not_true, not_false_iff, ite_true, ite_false,
          not_false_eq_true, not_true_eq_false]
      all_goals rfl

theorem canPerform_hs (st : FullState)
    (h : List Byte × List Byte × List (String × PrefVal))
    (op : InstallOperation) :
    CanPerformInstallOperation (withHS st h) op =
      CanPerformInstallOperation st op := rfl

theorem addBytes_hs (bytes : List Byte) (st : FullState)
    (h : List Byte × List Byte × List (String × PrefVal)) :
    addBytes bytes (withHS st h) = withHS (addBytes bytes st) h := rfl

theorem loopIter_hs (env : Env) (st : FullState)
    (h : List Byte × List Byte × List (String × PrefVal))
    (op : InstallOperation) (k : Bool) :
    ∃ h2,
      (loopIter env (withHS st h) op k).1 =
        withHS (loopIter env st op k).1 h2 ∧
      (loopIter env (withHS st h) op k).2.1 =
        (loopIter env st op k).2.1 ∧
      (loopIter env (withHS st h) op k).2.2 =
        (loopIter env st op k).2.2 := by
  obtain ⟨hA2, hA1, hAe⟩ := preStep_hs st h op
  obtain ⟨hB2, hB1, hBo, hBe⟩ := dispatchOp_hs env (preStep st op).1 hA2 op k
  unfold loopIter
  dsimp only
  rw [hA1, hAe, hB1, hBo, hBe]
  split
  · obtain ⟨hC2, hC1, hCe⟩ := checkpoint_hs
      { (dispatchOp env (preStep st op).1 op k).1 with
        next_operation_num :=
          (dispatchOp env (preStep st op).1 op k).1.next_operation_num + 1 }
      hB2
    have hC1' : (CheckpointUpdateProgress
        { withHS (dispatchOp env (preStep st op).1 op k).1 hB2 with
          next_operation_num :=
            (withHS (dispatchOp env (preStep st op).1 op k).1
              hB2).next_operation_num + 1 }).1 =
        withHS (CheckpointUpdateProgress
          { (dispatchOp env (preStep st op).1 op k).1 with
            next_operation_num :=
              (dispatchOp env (preStep st op).1 op k).1.next_operation_num +
                1 }).1 hC2 := hC1
    have hCe' : (CheckpointUpdateProgress
        { withHS (dispatchOp env (preStep st op).1 op k).1 hB2 with
          next_operation_num :=
            (withHS (dispatchOp env (preStep st op).1 op k).1
              hB2).next_operation_num + 1 }).2.2 =
        (CheckpointUpdateProgress
          { (dispatchOp env (preStep st op).1 op k).1 with
            next_operation_num :=
              (dispatchOp env (preStep st op).1 op k).1.next_operation_num +
                1 }).2.2 := hCe
    rw [hC1', hCe']
    exact ⟨hC2, rfl, rfl, rfl⟩
  · exact ⟨hB2, rfl, rfl, rfl⟩

theorem opLoop_hs (env : Env) (fuel : Nat) :
    ∀ (st : FullState)
      (h : List Byte × List Byte × List (String × PrefVal)),
    ∃ h2,
      (opLoop env fuel (withHS st h)).1 =
        withHS (opLoop env fuel st).1 h2 ∧
      (opLoop env fuel (withHS st h)).2.1 = (opLoop env fuel st).2.1 ∧
      (opLoop env fuel (withHS st h)).2.2 = (opLoop env fuel st).2.2 := by
  induction fuel with
  | zero => exact fun st h => ⟨h, rfl, rfl, rfl⟩
  | succ fuel ih =>
    intro st h
    rw [opLoop, opLoop]
    dsimp only
    split
    · rw [canPerform_hs]
      split
      · obtain ⟨hI2, hI1, hIo, hIe⟩ := loopIter_hs env st h
          (opAt st.manifest st.next_operation_num)
          (decide (st.manifest.install_operations.length ≤
            st.next_operation_num))
        rw [hI1, hIo, hIe]
        split
        · obtain ⟨hR2, hR1, hRo, hRe⟩ := ih
            (loopIter env st (opAt st.manifest st.next_operation_num)
              (decide (st.manifest.install_operations.length ≤
                st.next_operation_num))).1 hI2
          rw [hR1, hRo, hRe]
          exact ⟨hR2, rfl, rfl, rfl⟩
        · exact ⟨hI2, rfl, rfl, rfl⟩
      · exact ⟨h, rfl, rfl, rfl⟩
    · exact ⟨h, rfl, rfl, rfl⟩

theorem setInt64_snd (p : Prefs) (k : String) (v : Int) :
    (p.setInt64 k v).2 = !p.failKeys k := by
  unfold Prefs.setInt64 Prefs.set
  split
  · rename_i hk
    rw [hk]
    rfl
  · rename_i hk
    rw [Bool.not_eq_true] at hk
    rw [hk]
    rfl

theorem tryParse_hs (env : Env) (st : FullState)
    (h : List Byte × List Byte × List (String × PrefVal)) :
    tryParseManifest env (withHS st h) =
      match tryParseManifest env st with
      | .needMore => .needMore
      | .err => .err
      | .ok s evs =>
        .ok (withHS s (h.1 ++ (st.buffer.take s.manifest_metadata_size),
          h.2.1,
          (({ store := h.2.2, failKeys := st.prefs.failKeys } :
              Prefs).setInt64 kPrefsManifestMetadataSize
            s.manifest_metadata_size).1.store)) evs := by
  unfold tryParseManifest
  dsimp only
  split
  · rfl
  split
  · rfl
  split
  · rfl
  · simp only [Prefs.setInt64, Prefs.set]
    dsimp only [DiscardBufferHeadBytes]
    cases hk : st.prefs.failKeys kPrefsManifestMetadataSize <;>
      simp only [hk, Bool.false_eq_true, eq_self_iff_true, if_true, if_false,
        ite_true, ite_false] <;> rfl

theorem write_hs (env : Env) (st : FullState)
    (h : List Byte × List Byte × List (String × PrefVal))
    (bytes : List Byte) :
    ∃ h2,
      (Write env (withHS st h) bytes).1 =
        withHS (Write env st bytes).1 h2 ∧
      (Write env (withHS st h) bytes).2.1 = (Write env st bytes).2.1 ∧
      (Write env (withHS st h) bytes).2.2 = (Write env st bytes).2.2 := by
  unfold Write
  dsimp only
  rw [addBytes_hs,
    show (withHS (addBytes bytes st) h).manifest_valid =
      (addBytes bytes st).manifest_valid from rfl]
  by_cases hv : (addBytes bytes st).manifest_valid = true
  · rw [if_pos hv, if_pos hv]
    dsimp only
    rw [show totalOps (withHS (addBytes bytes st) h).manifest =
        totalOps (addBytes bytes st).manifest from rfl,
      show (withHS (addBytes bytes st) h).next_operation_num =
        (addBytes bytes st).next_operation_num from rfl]
    obtain ⟨hR2, hR1, hRo, hRe⟩ := opLoop_hs env
      (totalOps (addBytes bytes st).manifest -
        (addBytes bytes st).next_operation_num) (addBytes bytes st) h
    rw [hR1, hRo, hRe]
    exact ⟨hR2, rfl, rfl, rfl⟩
  · rw [if_neg hv, if_neg hv, tryParse_hs]
    rcases hp : tryParseManifest env (addBytes bytes st) with _ | _ | ⟨s, evs⟩
    · dsimp only
      exact ⟨h, rfl, rfl, rfl⟩
    · dsimp only
      exact ⟨h, rfl, rfl, rfl⟩
    · dsimp only
      rw [show totalOps (withHS s ((addBytes bytes st).buffer.take
            s.manifest_metadata_size |> (h.1 ++ ·), h.2.1,
            (({ store := h.2.2, failKeys := (addBytes bytes st).prefs.failKeys } :
              Prefs).setInt64 kPrefsManifestMetadataSize
              s.manifest_metadata_size).1.store)).manifest =
          totalOps s.manifest from rfl,
        show (withHS s ((addBytes bytes st).buffer.take
            s.manifest_metadata_size |> (h.1 ++ ·), h.2.1,
            (({ store := h.2.2, failKeys := (addBytes bytes st).prefs.failKeys } :
              Prefs).setInt64 kPrefsManifestMetadataSize
              s.manifest_metadata_size).1.store)).next_operation_num =
          s.next_operation_num from rfl]
      obtain ⟨hR2, hR1, hRo, hRe⟩ := opLoop_hs env
        (totalOps s.manifest - s.next_operation_num) s
        (h.1 ++ ((addBytes bytes st).buffer.take s.manifest_metadata_size),
         h.2.1,
         (({ store := h.2.2, failKeys := (addBytes bytes st).prefs.failKeys } :
            Prefs).setInt64 kPrefsManifestMetadataSize
           s.manifest_metadata_size).1.store)
      rw [hR1, hRo, hRe]
      exact ⟨hR2, rfl, rfl, rfl⟩

theorem drop_four (x1 x2 x3 x4 : Byte) (l : List Byte) (n : Nat) :
    ([x1, x2, x3, x4] ++ l).drop (kDeltaMagicLen + kDeltaVersionLength +
      kDeltaProtobufLengthLength + n) = l.drop (16 + n) := by
  have h : kDeltaMagicLen + kDeltaVersionLength + kDeltaProtobufLengthLength
      + n = (16 + n) + 1 + 1 + 1 + 1 := by
    unfold kDeltaMagicLen kDeltaVersionLength kDeltaProtobufLengthLength
    omega
  rw [h]
  simp only [List.cons_append, List.nil_append, List.drop_succ_cons]

theorem tryParse_magic (env : Env) (st : FullState)
    (a b c d a' b' c' d' : Byte) (rest : List Byte) (hb : st.buffer = []) :
    tryParseManifest env (addBytes ([a', b', c', d'] ++ rest) st) =
      match tryParseManifest env (addBytes ([a, b, c, d] ++ rest) st) with
      | .needMore => .needMore
      | .err => .err
      | .ok s evs => .ok (withHS s
          (st.hash_calculator.ctx ++
            (([a', b', c', d'] ++ rest).take s.manifest_metadata_size),
           s.signed_hash_context, s.prefs.store)) evs := by
  unfold tryParseManifest
  dsimp only [addBytes]
  rw [hb]
  dsimp only [List.nil_append, DiscardBufferHeadBytes, Hasher.update]
  rw [show ([a', b', c', d'] ++ rest).drop
        (kDeltaMagicLen + kDeltaVersionLength) = rest.drop 8 from rfl,
    show ([a, b, c, d] ++ rest).drop
        (kDeltaMagicLen + kDeltaVersionLength) = rest.drop 8 from rfl,
    show ([a', b', c', d'] ++ rest).length = 4 + rest.length by simp; omega,
    show ([a, b, c, d] ++ rest).length = 4 + rest.length by simp; omega,
    show ([a', b', c', d'] ++ rest).drop (kDeltaMagicLen +
        kDeltaVersionLength + kDeltaProtobufLengthLength) =
      rest.drop 16 from rfl,
    show ([a, b, c, d] ++ rest).drop (kDeltaMagicLen +
        kDeltaVersionLength + kDeltaProtobufLengthLength) =
      rest.drop 16 from rfl,
    drop_four a' b' c' d' rest, drop_four a b c d rest]
  split
  · rfl
  split
  · rfl
  split
  · rfl
  · rfl

/-- **C4 (amended).** The magic tag is never examined: two payload streams
that differ only in their four leading magic bytes elicit from `Write`
the same return values, the same externally visible events, and the same
final state up to the payload-hash context (the raw payload, magic
included, is absorbed into the SHA-256 contexts) — whatever the four
leading bytes are.  In particular a corrupted magic is never rejected
(`C4_counterexample`): the claimed negative-errno return does not
exist. -/
theorem C4_magic_never_examined (env : Env) (st : FullState)
    (m m' rest : List Byte) (hm : m.length = 4) (hm' : m'.length = 4)
    (hv : st.manifest_valid = false) (hb : st.buffer = []) :
    (Write env st (m' ++ rest)).2.1 = (Write env st (m ++ rest)).2.1 ∧
    (Write env st (m' ++ rest)).2.2 = (Write env st (m ++ rest)).2.2 ∧
    ((Write env st (m ++ rest)).1.manifest_valid = true →
      ∃ h2, (Write env st (m' ++ rest)).1 =
        withHS (Write env st (m ++ rest)).1 h2) := by
  obtain ⟨a, b, c, d, rfl⟩ : ∃ a b c d, m = [a, b, c, d] := by
    rcases m with _ | ⟨a, _ | ⟨b, _ | ⟨c, _ | ⟨d, _ | ⟨e, t⟩⟩⟩⟩⟩
    · exact absurd hm (by simp)
    · exact absurd hm (by simp)
    · exact absurd hm (by simp)
    · exact absurd hm (by simp)
    · exact ⟨a, b, c, d, rfl⟩
    · refine absurd hm ?_
      simp only [List.length_cons]
      omega
  obtain ⟨a', b', c', d', rfl⟩ : ∃ x y z w, m' = [x, y, z, w] := by
    rcases m' with _ | ⟨a', _ | ⟨b', _ | ⟨c', _ | ⟨d', _ | ⟨e', t'⟩⟩⟩⟩⟩
    · exact absurd hm' (by simp)
    · exact absurd hm' (by simp)
    · exact absurd hm' (by simp)
    · exact absurd hm' (by simp)
    · exact ⟨a', b', c', d', rfl⟩
    · refine absurd hm' ?_
      simp only [List.length_cons]
      omega
  unfold Write
  dsimp only
  simp only [show (addBytes ([a', b', c', d'] ++ rest) st).manifest_valid =
      st.manifest_valid from rfl,
    show (addBytes ([a, b, c, d] ++ rest) st).manifest_valid =
      st.manifest_valid from rfl,
    hv, Bool.false_eq_true, if_false]
  rw [tryParse_magic env st a b c d a' b' c' d' rest hb]
  rcases hp : tryParseManifest env (addBytes ([a, b, c, d] ++ rest) st)
    with _ | _ | ⟨s, evs⟩
  · dsimp only
    refine ⟨rfl, rfl, fun hmv => ?_⟩
    rw [show (addBytes ([a, b, c, d] ++ rest) st).manifest_valid =
      st.manifest_valid from rfl, hv] at hmv
    cases hmv
  · dsimp only
    refine ⟨rfl, rfl, fun hmv => ?_⟩
    rw [show (addBytes ([a, b, c, d] ++ rest) st).manifest_valid =
      st.manifest_valid from rfl, hv] at hmv
    cases hmv
  · dsimp only
    rw [show (withHS s (st.hash_calculator.ctx ++
          (([a', b', c', d'] ++ rest).take s.manifest_metadata_size),
          s.signed_hash_context, s.prefs.store)).manifest =
        s.manifest from rfl,
      show (withHS s (st.hash_calculator.ctx ++
          (([a', b', c', d'] ++ rest).take s.manifest_metadata_size),
          s.signed_hash_context, s.prefs.store)).next_operation_num =
        s.next_operation_num from rfl]
    obtain ⟨hR2, hR1, hRo, hRe⟩ := opLoop_hs env
      (totalOps s.manifest - s.next_operation_num) s
      (st.hash_calculator.ctx ++
        (([a', b', c', d'] ++ rest).take s.manifest_metadata_size),
       s.signed_hash_context, s.prefs.store)
    rw [hR1, hRo, hRe]
    exact ⟨rfl, rfl, fun _ => ⟨hR2, rfl⟩⟩

/-- **C4 counterexample.** A payload whose four leading bytes `[0,0,0,0]`
are not the `CrAU` magic tag, yet which `Write` accepts end to end: it
returns the full byte count (a non-negative value, not a negative errno),
marks the manifest valid, and applies the embedded REPLACE operation to
the rootfs — with the whole payload prefix present from the first call. -/
theorem C4_counterexample :
    (([0, 0, 0, 0] ++ payloadTailC4).take 4 ≠ kDeltaMagicBytes) ∧
    kDeltaMagicLen + kDeltaVersionLength + kDeltaProtobufLengthLength ≤
      ([0, 0, 0, 0] ++ payloadTailC4 : List Byte).length ∧
    (Write envC4 stC4 ([0, 0, 0, 0] ++ payloadTailC4)).2.1 =
      (([0, 0, 0, 0] ++ payloadTailC4 : List Byte).length : Int) ∧
    ¬ (Write envC4 stC4 ([0, 0, 0, 0] ++ payloadTailC4)).2.1 < 0 ∧
    (Write envC4 stC4 ([0, 0, 0, 0] ++ payloadTailC4)).1.manifest_valid
      = true ∧
    (Write envC4 stC4 ([0, 0, 0, 0] ++ payloadTailC4)).1.next_operation_num
      = 1 ∧
    (Write envC4 stC4 ([0, 0, 0, 0] ++ payloadTailC4)).1.rootfs 0 = 171 := by
  decide

/-- Witness for `C4_magic_never_examined` at concrete inputs: the genuine
`CrAU` magic against the corrupted `[0,0,0,0]` prefix over the same
payload tail. -/
theorem C4_magic_never_examined_witness :
    (kDeltaMagicBytes.length = 4 ∧
     ([0, 0, 0, 0] : List Byte).length = 4 ∧
     stC4.manifest_valid = false ∧ stC4.buffer = []) ∧
    ((Write envC4 stC4 (([0, 0, 0, 0] : List Byte) ++ payloadTailC4)).2.1 =
      (Write envC4 stC4 (kDeltaMagicBytes ++ payloadTailC4)).2.1 ∧
    (Write envC4 stC4 (([0, 0, 0, 0] : List Byte) ++ payloadTailC4)).2.2 =
      (Write envC4 stC4 (kDeltaMagicBytes ++ payloadTailC4)).2.2 ∧
    ((Write envC4 stC4 (kDeltaMagicBytes ++ payloadTailC4)).1.manifest_valid
        = true →
      ∃ h2, (Write envC4 stC4 (([0, 0, 0, 0] : List Byte) ++
          payloadTailC4)).1 =
        withHS (Write envC4 stC4 (kDeltaMagicBytes ++ payloadTailC4)).1
          h2)) :=
  ⟨⟨by decide, by decide, rfl, rfl⟩,
   C4_magic_never_examined envC4 stC4 kDeltaMagicBytes [0, 0, 0, 0]
     payloadTailC4 (by decide) (by decide) rfl rfl⟩

theorem hashFrame_refl (st : FullState) : HashFrame st st :=
  ⟨rfl, rfl, rfl, rfl⟩

theorem hashFrame_trans {s1 s2 s3 : FullState}
    (h12 : HashFrame s1 s2) (h23 : HashFrame s2 s3) : HashFrame s1 s3 := by
  obtain ⟨a1, b1, c1, d1⟩ := h12
  obtain ⟨a2, b2, c2, d2⟩ := h23
  exact ⟨a2.trans a1, by omega, c2.trans c1, d2.trans d1⟩

theorem hashFrame_setDevice (st : FullState) (k : Bool) (d : Device) :
    HashFrame st (st.setDevice k d) := by
  cases k <;> exact ⟨rfl, rfl, rfl, rfl⟩

theorem extract_keeps (st : FullState) (op : InstallOperation) :
    (ExtractSignatureMessage st op).1.hash_calculator =
      st.hash_calculator ∧
    (ExtractSignatureMessage st op).1.buffer = st.buffer ∧
    (ExtractSignatureMessage st op).1.buffer_offset = st.buffer_offset ∧
    (ExtractSignatureMessage st op).1.manifest_metadata_size =
      st.manifest_metadata_size ∧
    (ExtractSignatureMessage st op).1.manifest_valid =
      st.manifest_valid := by
  unfold ExtractSignatureMessage Prefs.setCtx Prefs.set
  repeat' split
  all_goals exact ⟨rfl, rfl, rfl, rfl, rfl⟩

theorem setDevice_hash (st : FullState) (k : Bool) (d : Device) :
    (st.setDevice k d).hash_calculator = st.hash_calculator := by
  cases k <;> rfl

theorem setDevice_mms (st : FullState) (k : Bool) (d : Device) :
    (st.setDevice k d).manifest_metadata_size =
      st.manifest_metadata_size := by
  cases k <;> rfl

theorem setDevice_valid (st : FullState) (k : Bool) (d : Device) :
    (st.setDevice k d).manifest_valid = st.manifest_valid := by
  cases k <;> rfl

theorem hashFrame_discard_consume (st : FullState) (dl : Nat)
    (hdl : dl ≤ st.buffer.length) :
    HashFrame st (DiscardBufferHeadBytes
      { st with buffer_offset := st.buffer_offset + dl } dl) := by
  unfold DiscardBufferHeadBytes Hasher.update
  dsimp only
  refine ⟨?_, ?_, rfl, rfl⟩
  · rw [List.append_assoc, List.take_append_drop]
  · simp only [List.length_append, List.length_take]
    omega

theorem hashFrame_consumeDevice (st : FullState) (k : Bool) (d : Device)
    (dl : Nat) (hdl : dl ≤ st.buffer.length) :
    HashFrame st (DiscardBufferHeadBytes
      { st.setDevice k d with buffer_offset :=
          (st.setDevice k d).buffer_offset + dl } dl) := by
  refine hashFrame_trans (hashFrame_setDevice st k d) ?_
  have hb : (st.setDevice k d).buffer = st.buffer := setDevice_buffer st k d
  exact hashFrame_discard_consume (st.setDevice k d) dl (hb ▸ hdl)

theorem hashFrame_replace (env : Env) (st : FullState)
    (op : InstallOperation) (k : Bool) :
    HashFrame st (PerformReplaceOperation env st op k).1 := by
  unfold PerformReplaceOperation
  dsimp only
  split
  · exact hashFrame_refl st
  split
  · exact hashFrame_refl st
  split
  · exact hashFrame_refl st
  rename_i h1 h2 h3
  rcases hE : ExtractSignatureMessage st op with ⟨sE, sigE, evsE⟩
  have hK := extract_keeps st op
  rw [hE] at hK
  dsimp only at hK
  obtain ⟨e1, e2, e3, e4, e5⟩ := hK
  have fE : HashFrame st sE := ⟨by rw [e1, e2], by rw [e1, e3], e4, e5⟩
  dsimp only
  split
  · exact fE
  · refine hashFrame_trans fE
      (hashFrame_consumeDevice sE k _ op.data_length ?_)
    rw [e2]
    omega

theorem hashFrame_move (st : FullState) (op : InstallOperation) (k : Bool) :
    HashFrame st (PerformMoveOperation st op k).1 := by
  unfold PerformMoveOperation
  dsimp only
  exact hashFrame_setDevice st k _

theorem hashFrame_consumeDevice2 (st : FullState) (k : Bool)
    (d1 d2 : Device) (dl : Nat) (hdl : dl ≤ st.buffer.length) :
    HashFrame st (DiscardBufferHeadBytes
      { (st.setDevice k d1).setDevice k d2 with buffer_offset :=
          ((st.setDevice k d1).setDevice k d2).buffer_offset + dl } dl) := by
  refine hashFrame_trans (hashFrame_setDevice st k d1) ?_
  have hb : (st.setDevice k d1).buffer = st.buffer := setDevice_buffer st k d1
  exact hashFrame_consumeDevice (st.setDevice k d1) k d2 dl (hb ▸ hdl)

theorem hashFrame_bsdiff (env : Env) (st : FullState)
    (op : InstallOperation) (k : Bool) :
    HashFrame st (PerformBsdiffOperation env st op k).1 := by
  unfold PerformBsdiffOperation
  dsimp only
  split
  · exact hashFrame_refl st
  split
  · exact hashFrame_refl st
  rename_i h1 h2
  split
  · split
    · exact hashFrame_setDevice st k _
    · split
      · exact hashFrame_consumeDevice2 st k _ _ op.data_length (by omega)
      · exact hashFrame_consumeDevice st k _ op.data_length (by omega)
  · exact hashFrame_refl st

theorem hashFrame_dispatch (env : Env) (st : FullState)
    (op : InstallOperation) (k : Bool) :
    HashFrame st (dispatchOp env st op k).1 := by
  unfold dispatchOp
  cases op.type
  · exact hashFrame_replace env st op k
  · exact hashFrame_replace env st op k
  · exact hashFrame_move st op k
  · exact hashFrame_bsdiff env st op k

theorem hashFrame_preStep (st : FullState) (op : InstallOperation) :
    HashFrame st (preStep st op).1 := by
  unfold preStep ResetUpdateProgress Prefs.setInt64 Prefs.set
  repeat' split
  all_goals exact ⟨rfl, rfl, rfl, rfl⟩

theorem hashFrame_checkpoint (st : FullState) :
    HashFrame st (CheckpointUpdateProgress st).1 := by
  unfold CheckpointUpdateProgress ResetUpdateProgress Prefs.setInt64
    Prefs.setCtx Prefs.set
  dsimp only
  by_cases hlu : st.last_updated_buffer_offset ≠ (st.buffer_offset : Int)
  · rw [if_pos hlu]
    cases hf1 : st.prefs.failKeys kPrefsUpdateStateNextOperation <;>
      cases hf2 : st.prefs.failKeys kPrefsUpdateStateSHA256Context <;>
        cases hf3 : st.prefs.failKeys kPrefsUpdateStateNextDataOffset <;>
          simp only [hf1, hf2, hf3, Bool.false_eq_true, eq_self_iff_true,
            if_true, if_false, not_true, not_false_iff, ite_true, ite_false,
            not_false_eq_true, not_true_eq_false]
    all_goals exact ⟨rfl, rfl, rfl, rfl⟩
  · rw [if_neg hlu]
    cases hf1 : st.prefs.failKeys kPrefsUpdateStateNextOperation <;>
      simp only [hf1, Bool.false_eq_true, eq_self_iff_true,
        if_true, if_false, not_true, not_false_iff, ite_true, ite_false,
        not_false_eq_true, not_true_eq_false]
    all_goals exact ⟨rfl, rfl, rfl, rfl⟩

theorem hashFrame_loopIter (env : Env) (st : FullState)
    (op : InstallOperation) (k : Bool) :
    HashFrame st (loopIter env st op k).1 := by
  unfold loopIter
  rcases hA : preStep st op with ⟨sA, evsA⟩
  have fA : HashFrame st sA := by
    have h := hashFrame_preStep st op
    rw [hA] at h
    exact h
  dsimp only
  rcases hB : dispatchOp env sA op k with ⟨sB, okB, evsB⟩
  have fB : HashFrame sA sB := by
    have h := hashFrame_dispatch env sA op k
    rw [hB] at h
    exact h
  dsimp only
  split
  · rcases hC : CheckpointUpdateProgress
        { sB with next_operation_num := sB.next_operation_num + 1 } with
      ⟨sC, okC, evsC⟩
    have fC : HashFrame { sB with next_operation_num :=
        sB.next_operation_num + 1 } sC := by
      have h := hashFrame_checkpoint
        { sB with next_operation_num := sB.next_operation_num + 1 }
      rw [hC] at h
      exact h
    refine hashFrame_trans fA (hashFrame_trans fB ?_)
    have hbump : HashFrame sB { sB with next_operation_num :=
        sB.next_operation_num + 1 } := ⟨rfl, rfl, rfl, rfl⟩
    exact hashFrame_trans hbump (hashFrame_trans fC ⟨rfl, rfl, rfl, rfl⟩)
  · exact hashFrame_trans fA fB

theorem hashFrame_opLoop (env : Env) (fuel : Nat) :
    ∀ st : FullState, HashFrame st (opLoop env fuel st).1 := by
  induction fuel with
  | zero => exact fun st => hashFrame_refl st
  | succ fuel ih =>
    intro st
    rw [opLoop]
    dsimp only
    split
    · split
      · rcases hI : loopIter env st
            (opAt st.manifest st.next_operation_num)
            (decide (st.manifest.install_operations.length ≤
              st.next_operation_num)) with ⟨sI, okI, evsI⟩
        have fI : HashFrame st sI := by
          have h := hashFrame_loopIter env st
            (opAt st.manifest st.next_operation_num)
            (decide (st.manifest.install_operations.length ≤
              st.next_operation_num))
          rw [hI] at h
          exact h
        dsimp only
        split
        · exact hashFrame_trans fI (ih sI)
        · exact fI
      · exact hashFrame_refl st
    · exact hashFrame_refl st

theorem tryParse_ok_inv (env : Env) (st : FullState) (s : FullState)
    (evs : List Event)
    (hp : tryParseManifest env st = .ok s evs) :
    s.hash_calculator.ctx = st.hash_calculator.ctx ++
      st.buffer.take s.manifest_metadata_size ∧
    s.buffer = st.buffer.drop s.manifest_metadata_size ∧
    s.manifest_metadata_size ≤ st.buffer.length ∧
    s.buffer_offset = st.buffer_offset ∧
    s.manifest_valid = true := by
  unfold tryParseManifest at hp
  dsimp only at hp
  split at hp
  · cases hp
  split at hp
  · cases hp
  rename_i hlen2
  split at hp
  · cases hp
  · cases hp
    unfold DiscardBufferHeadBytes Hasher.update
    dsimp only
    refine ⟨rfl, rfl, ?_, rfl, rfl⟩
    omega

/-- **C9.** Hash-coverage invariant of `Write`. -/
theorem C9_hash_coverage (env : Env) (st : FullState) (bytes : List Byte)
    (h1 : st.hash_calculator.ctx.length =
      st.manifest_metadata_size + st.buffer_offset)
    (h2 : st.manifest_valid = false →
      st.manifest_metadata_size = 0 ∧ st.buffer_offset = 0) :
    ((Write env st bytes).1.hash_calculator.ctx.length =
      (Write env st bytes).1.manifest_metadata_size +
        (Write env st bytes).1.buffer_offset ∧
     ((Write env st bytes).1.manifest_valid = false →
      (Write env st bytes).1.manifest_metadata_size = 0 ∧
        (Write env st bytes).1.buffer_offset = 0)) ∧
    (Write env st bytes).1.hash_calculator.ctx ++
        (Write env st bytes).1.buffer =
      st.hash_calculator.ctx ++ st.buffer ++ bytes ∧
    (Write env st bytes).1.hash_calculator.ctx =
      (st.hash_calculator.ctx ++ st.buffer ++ bytes).take
        ((Write env st bytes).1.manifest_metadata_size +
          (Write env st bytes).1.buffer_offset) := by
  have main : ((Write env st bytes).1.hash_calculator.ctx.length =
      (Write env st bytes).1.manifest_metadata_size +
        (Write env st bytes).1.buffer_offset ∧
     ((Write env st bytes).1.manifest_valid = false →
      (Write env st bytes).1.manifest_metadata_size = 0 ∧
        (Write env st bytes).1.buffer_offset = 0)) ∧
      (Write env st bytes).1.hash_calculator.ctx ++
          (Write env st bytes).1.buffer =
        st.hash_calculator.ctx ++ st.buffer ++ bytes := by
    unfold Write
    dsimp only
    by_cases hv : (addBytes bytes st).manifest_valid = true
    · rw [if_pos hv]
      dsimp only
      obtain ⟨fa, fb, fc, fd⟩ := hashFrame_opLoop env
        (totalOps (addBytes bytes st).manifest -
          (addBytes bytes st).next_operation_num) (addBytes bytes st)
      have hbuf : (addBytes bytes st).buffer = st.buffer ++ bytes := rfl
      have hctx : (addBytes bytes st).hash_calculator =
        st.hash_calculator := rfl
      have hbo : (addBytes bytes st).buffer_offset = st.buffer_offset := rfl
      have hmms : (addBytes bytes st).manifest_metadata_size =
        st.manifest_metadata_size := rfl
      simp only [hbuf, hctx, hbo, hmms] at fa
      simp only [hctx, hbo] at fb
      simp only [hmms] at fc
      refine ⟨⟨by omega, fun hvF => ?_⟩, ?_⟩
      · rw [fd, show (addBytes bytes st).manifest_valid =
          st.manifest_valid from rfl] at hvF
        rw [show (addBytes bytes st).manifest_valid =
          st.manifest_valid from rfl] at hv
        rw [hv] at hvF
        cases hvF
      · rw [fa, List.append_assoc]
    · rw [if_neg hv]
      rcases hp : tryParseManifest env (addBytes bytes st)
        with _ | _ | ⟨s, evs⟩
      · dsimp only
        exact ⟨⟨h1, h2⟩, (List.append_assoc _ _ _).symm⟩
      · dsimp only
        exact ⟨⟨h1, h2⟩, (List.append_assoc _ _ _).symm⟩
      · dsimp only
        have hvf : st.manifest_valid = false := by
          rw [show (addBytes bytes st).manifest_valid =
            st.manifest_valid from rfl] at hv
          cases hgoal : st.manifest_valid
          · rfl
          · exact absurd hgoal hv
        obtain ⟨hz1, hz2⟩ := h2 hvf
        have hctx0 : st.hash_calculator.ctx = [] := by
          have : st.hash_calculator.ctx.length = 0 := by omega
          exact List.eq_nil_of_length_eq_zero this
        obtain ⟨p1, p2, p3, p4, p5⟩ :=
          tryParse_ok_inv env (addBytes bytes st) s evs hp
        rw [show (addBytes bytes st).hash_calculator =
          st.hash_calculator from rfl] at p1
        rw [show (addBytes bytes st).buffer = st.buffer ++ bytes from rfl]
          at p1 p2 p3
        rw [show (addBytes bytes st).buffer_offset =
          st.buffer_offset from rfl] at p4
        obtain ⟨fa, fb, fc, fd⟩ := hashFrame_opLoop env
          (totalOps s.manifest - s.next_operation_num) s
        have hslen : s.hash_calculator.ctx.length =
            s.manifest_metadata_size + s.buffer_offset := by
          rw [p1, hctx0]
          simp only [List.nil_append, List.length_take]
          omega
        refine ⟨⟨by omega, fun hvF => ?_⟩, ?_⟩
        · rw [fd, p5] at hvF
          cases hvF
        · rw [fa, p1, p2, hctx0]
          simp only [List.nil_append]
          rw [List.take_append_drop]
  refine ⟨main.1, main.2, ?_⟩
  rw [← main.2, ← show (Write env st bytes).1.hash_calculator.ctx.length =
    (Write env st bytes).1.manifest_metadata_size +
      (Write env st bytes).1.buffer_offset from main.1.1]
  exact (List.take_left _ _).symm

/-- Witness for `C9_hash_coverage`: the fresh applier state and a concrete
payload. -/
theorem C9_hash_coverage_witness :
    (stC4.hash_calculator.ctx.length =
      stC4.manifest_metadata_size + stC4.buffer_offset ∧
     (stC4.manifest_valid = false →
      stC4.manifest_metadata_size = 0 ∧ stC4.buffer_offset = 0)) ∧
    (((Write envC4 stC4 [1, 2, 3]).1.hash_calculator.ctx.length =
      (Write envC4 stC4 [1, 2, 3]).1.manifest_metadata_size +
        (Write envC4 stC4 [1, 2, 3]).1.buffer_offset ∧
     ((Write envC4 stC4 [1, 2, 3]).1.manifest_valid = false →
      (Write envC4 stC4 [1, 2, 3]).1.manifest_metadata_size = 0 ∧
        (Write envC4 stC4 [1, 2, 3]).1.buffer_offset = 0)) ∧
    (Write envC4 stC4 [1, 2, 3]).1.hash_calculator.ctx ++
        (Write envC4 stC4 [1, 2, 3]).1.buffer =
      stC4.hash_calculator.ctx ++ stC4.buffer ++ [1, 2, 3] ∧
    (Write envC4 stC4 [1, 2, 3]).1.hash_calculator.ctx =
      (stC4.hash_calculator.ctx ++ stC4.buffer ++ [1, 2, 3]).take
        ((Write envC4 stC4 [1, 2, 3]).1.manifest_metadata_size +
          (Write envC4 stC4 [1, 2, 3]).1.buffer_offset)) :=
  ⟨⟨by decide, by decide⟩,
   C9_hash_coverage envC4 stC4 [1, 2, 3] (by decide) (by decide)⟩

theorem addBytes_addBytes (b1 b2 : List Byte) (st : FullState) :
    addBytes b2 (addBytes b1 st) = addBytes (b1 ++ b2) st := by
  unfold addBytes
  dsimp only
  rw [List.append_assoc]

theorem addBytes_nil (st : FullState) : addBytes [] st = st := by
  unfold addBytes
  rw [List.append_nil]

theorem setDevice_addBytes (ex : List Byte) (st : FullState) (k : Bool)
    (d : Device) :
    (addBytes ex st).setDevice k d = addBytes ex (st.setDevice k d) := by
  cases k <;> rfl

theorem device_addBytes (ex : List Byte) (st : FullState) (k : Bool) :
    (addBytes ex st).device k = st.device k := by
  cases k <;> rfl

theorem canPerform_addBytes_mono (ex : List Byte) (st : FullState)
    (op : InstallOperation)
    (h : CanPerformInstallOperation st op = true) :
    CanPerformInstallOperation (addBytes ex st) op = true := by
  unfold CanPerformInstallOperation at h ⊢
  dsimp only [addBytes] at h ⊢
  split at h
  · rw [if_pos]
    assumption
  · rename_i hty
    rw [if_neg hty]
    split at h
    · cases h
    · rename_i hlt
      rw [if_neg hlt]
      have hle := of_decide_eq_true h
      refine decide_eq_true ?_
      simp only [List.length_append]
      omega

theorem discard_addBytes (ex : List Byte) (st : FullState) (dl : Nat)
    (hdl : dl ≤ st.buffer.length) :
    DiscardBufferHeadBytes (addBytes ex st) dl =
      addBytes ex (DiscardBufferHeadBytes st dl) := by
  unfold DiscardBufferHeadBytes Hasher.update addBytes
  dsimp only
  rw [List.take_append_of_le_length hdl, List.drop_append_of_le_length hdl]

theorem preStep_addBytes (ex : List Byte) (st : FullState)
    (op : InstallOperation) :
    (preStep (addBytes ex st) op).1 = addBytes ex (preStep st op).1 ∧
    (preStep (addBytes ex st) op).2 = (preStep st op).2 := by
  unfold preStep ResetUpdateProgress Prefs.setInt64 Prefs.set
  dsimp only [addBytes]
  repeat' split
  all_goals exact ⟨rfl, rfl⟩

set_option maxHeartbeats 1000000 in
theorem checkpoint_addBytes (ex : List Byte) (st : FullState) :
    (CheckpointUpdateProgress (addBytes ex st)).1 =
      addBytes ex (CheckpointUpdateProgress st).1 ∧
    (CheckpointUpdateProgress (addBytes ex st)).2.1 =
      (CheckpointUpdateProgress st).2.1 := by
  constructor
  · unfold CheckpointUpdateProgress ResetUpdateProgress Prefs.setInt64
      Prefs.setCtx Prefs.set
    dsimp only [addBytes]
    by_cases hlu : st.last_updated_buffer_offset ≠ (st.buffer_offset : Int)
    · rw [if_pos hlu, if_pos hlu]
      all_goals cases hf1 : st.prefs.failKeys kPrefsUpdateStateNextOperation <;>
        cases hf2 : st.prefs.failKeys kPrefsUpdateStateSHA256Context <;>
          cases hf3 : st.prefs.failKeys kPrefsUpdateStateNextDataOffset <;>
            simp only [hf1, hf2, hf3, Bool.false_eq_true, eq_self_iff_true,
              if_true, if_false, not_true, not_false_iff, ite_true,
              ite_false, not_false_eq_true, not_true_eq_false]
      all_goals try rfl
    · rw [if_neg hlu, if_neg hlu]
      all_goals cases hf1 : st.prefs.failKeys kPrefsUpdateStateNextOperation <;>
        simp only [hf1, Bool.false_eq_true, eq_self_iff_true,
          if_true, if_false, not_true, not_false_iff, ite_true, ite_false,
          not_false_eq_true, not_true_eq_false]
      all_goals try rfl
  · unfold CheckpointUpdateProgress ResetUpdateProgress Prefs.setInt64
      Prefs.setCtx Prefs.set
    dsimp only [addBytes]
    by_cases hlu : st.last_updated_buffer_offset ≠ (st.buffer_offset : Int)
    · rw [if_pos hlu, if_pos hlu]
      all_goals cases hf1 : st.prefs.failKeys kPrefsUpdateStateNextOperation <;>
        cases hf2 : st.prefs.failKeys kPrefsUpdateStateSHA256Context <;>
          cases hf3 : st.prefs.failKeys kPrefsUpdateStateNextDataOffset <;>
            simp only [hf1, hf2, hf3, Bool.false_eq_true, eq_self_iff_true,
              if_true, if_false, not_true, not_false_iff, ite_true,
              ite_false, not_false_eq_true, not_true_eq_false]
      all_goals try rfl
    · rw [if_neg hlu, if_neg hlu]
      all_goals cases hf1 : st.prefs.failKeys kPrefsUpdateStateNextOperation <;>
        simp only [hf1, Bool.false_eq_true, eq_self_iff_true,
          if_true, if_false, not_true, not_false_iff, ite_true, ite_false,
          not_false_eq_true, not_true_eq_false]
      all_goals try rfl

theorem extract_addBytes (ex : List Byte) (st : FullState)
    (op : InstallOperation) (hdl : op.data_length ≤ st.buffer.length) :
    (ExtractSignatureMessage (addBytes ex st) op).1 =
      addBytes ex (ExtractSignatureMessage st op).1 ∧
    (ExtractSignatureMessage (addBytes ex st) op).2.1 =
      (ExtractSignatureMessage st op).2.1 := by
  unfold ExtractSignatureMessage Prefs.setCtx Prefs.set
  dsimp only [addBytes]
  rw [if_neg (show ¬(st.buffer ++ ex).length < op.data_length by
      simp only [List.length_append]; omega),
    if_neg (show ¬st.buffer.length < op.data_length by omega),
    List.take_append_of_le_length hdl]
  repeat' split
  all_goals exact ⟨rfl, rfl⟩

theorem extract_keeps2 (st : FullState) (op : InstallOperation) :
    (ExtractSignatureMessage st op).1.manifest = st.manifest ∧
    (ExtractSignatureMessage st op).1.next_operation_num =
      st.next_operation_num := by
  unfold ExtractSignatureMessage Prefs.setCtx Prefs.set
  repeat' split
  all_goals exact ⟨rfl, rfl⟩

theorem setDevice_manifest (st : FullState) (k : Bool) (d : Device) :
    (st.setDevice k d).manifest = st.manifest := by
  cases k <;> rfl

theorem keeps_consumeDevice (st : FullState) (k : Bool) (d : Device)
    (dl : Nat) :
    (DiscardBufferHeadBytes { st.setDevice k d with buffer_offset :=
        (st.setDevice k d).buffer_offset + dl } dl).manifest =
      st.manifest ∧
    (DiscardBufferHeadBytes { st.setDevice k d with buffer_offset :=
        (st.setDevice k d).buffer_offset + dl } dl).next_operation_num =
      st.next_operation_num ∧
    (DiscardBufferHeadBytes { st.setDevice k d with buffer_offset :=
        (st.setDevice k d).buffer_offset + dl } dl).manifest_valid =
      st.manifest_valid := by
  cases k <;> exact ⟨rfl, rfl, rfl⟩

theorem keeps_consumeDevice2 (st : FullState) (k : Bool) (d1 d2 : Device)
    (dl : Nat) :
    (DiscardBufferHeadBytes { (st.setDevice k d1).setDevice k d2 with
        buffer_offset := ((st.setDevice k d1).setDevice k d2).buffer_offset
          + dl } dl).manifest = st.manifest ∧
    (DiscardBufferHeadBytes { (st.setDevice k d1).setDevice k d2 with
        buffer_offset := ((st.setDevice k d1).setDevice k d2).buffer_offset
          + dl } dl).next_operation_num = st.next_operation_num ∧
    (DiscardBufferHeadBytes { (st.setDevice k d1).setDevice k d2 with
        buffer_offset := ((st.setDevice k d1).setDevice k d2).buffer_offset
          + dl } dl).manifest_valid = st.manifest_valid := by
  cases k <;> exact ⟨rfl, rfl, rfl⟩

theorem replace_keeps (env : Env) (st : FullState)
    (op : InstallOperation) (k : Bool) :
    (PerformReplaceOperation env st op k).1.manifest = st.manifest ∧
    (PerformReplaceOperation env st op k).1.next_operation_num =
      st.next_operation_num ∧
    (PerformReplaceOperation env st op k).1.manifest_valid =
      st.manifest_valid := by
  unfold PerformReplaceOperation
  dsimp only
  split
  · exact ⟨rfl, rfl, rfl⟩
  split
  · exact ⟨rfl, rfl, rfl⟩
  split
  · exact ⟨rfl, rfl, rfl⟩
  rcases hE : ExtractSignatureMessage st op with ⟨sE, sigE, evsE⟩
  have k2 := extract_keeps2 st op
  have k5 := extract_keeps st op
  rw [hE] at k2 k5
  dsimp only at k2 k5
  obtain ⟨e6, e7⟩ := k2
  obtain ⟨e1, e2, e3, e4, e5⟩ := k5
  dsimp only
  split
  · exact ⟨e6, e7, e5⟩
  · obtain ⟨q1, q2, q3⟩ := keeps_consumeDevice sE k
      (writeExtents (sE.device k) op.dst_extents sE.block_size
        (zeroPad sE.block_size _)) op.data_length
    exact ⟨q1.trans e6, q2.trans e7, q3.trans e5⟩

theorem move_keeps (st : FullState) (op : InstallOperation) (k : Bool) :
    (PerformMoveOperation st op k).1.manifest = st.manifest ∧
    (PerformMoveOperation st op k).1.next_operation_num =
      st.next_operation_num ∧
    (PerformMoveOperation st op k).1.manifest_valid = st.manifest_valid := by
  unfold PerformMoveOperation
  dsimp only
  exact ⟨setDevice_manifest st k _, setDevice_next_op st k _,
    setDevice_valid st k _⟩

theorem bsdiff_keeps (env : Env) (st : FullState)
    (op : InstallOperation) (k : Bool) :
    (PerformBsdiffOperation env st op k).1.manifest = st.manifest ∧
    (PerformBsdiffOperation env st op k).1.next_operation_num =
      st.next_operation_num ∧
    (PerformBsdiffOperation env st op k).1.manifest_valid =
      st.manifest_valid := by
  unfold PerformBsdiffOperation
  dsimp only
  split
  · exact ⟨rfl, rfl, rfl⟩
  split
  · exact ⟨rfl, rfl, rfl⟩
  split
  · split
    · exact ⟨setDevice_manifest st k _, setDevice_next_op st k _,
        setDevice_valid st k _⟩
    · split
      · exact keeps_consumeDevice2 st k _ _ op.data_length
      · exact keeps_consumeDevice st k _ op.data_length
  · exact ⟨rfl, rfl, rfl⟩

theorem dispatch_keeps (env : Env) (st : FullState)
    (op : InstallOperation) (k : Bool) :
    (dispatchOp env st op k).1.manifest = st.manifest ∧
    (dispatchOp env st op k).1.next_operation_num =
      st.next_operation_num ∧
    (dispatchOp env st op k).1.manifest_valid = st.manifest_valid := by
  unfold dispatchOp
  cases op.type
  · exact replace_keeps env st op k
  · exact replace_keeps env st op k
  · exact move_keeps st op k
  · exact bsdiff_keeps env st op k

theorem preStep_keeps (st : FullState) (op : InstallOperation) :
    (preStep st op).1.manifest = st.manifest ∧
    (preStep st op).1.next_operation_num = st.next_operation_num ∧
    (preStep st op).1.manifest_valid = st.manifest_valid := by
  unfold preStep ResetUpdateProgress Prefs.setInt64 Prefs.set
  repeat' split
  all_goals exact ⟨rfl, rfl, rfl⟩

theorem checkpoint_keeps (st : FullState) :
    (CheckpointUpdateProgress st).1.manifest = st.manifest ∧
    (CheckpointUpdateProgress st).1.next_operation_num =
      st.next_operation_num ∧
    (CheckpointUpdateProgress st).1.manifest_valid = st.manifest_valid := by
  unfold CheckpointUpdateProgress ResetUpdateProgress Prefs.setInt64
    Prefs.setCtx Prefs.set
  dsimp only
  by_cases hlu : st.last_updated_buffer_offset ≠ (st.buffer_offset : Int)
  · rw [if_pos hlu]
    all_goals cases hf1 : st.prefs.failKeys kPrefsUpdateStateNextOperation <;>
      cases hf2 : st.prefs.failKeys kPrefsUpdateStateSHA256Context <;>
        cases hf3 : st.prefs.failKeys kPrefsUpdateStateNextDataOffset <;>
          simp only [hf1, hf2, hf3, Bool.false_eq_true, eq_self_iff_true,
            if_true, if_false, not_true, not_false_iff, ite_true, ite_false,
            not_false_eq_true, not_true_eq_false]
    all_goals exact ⟨by trivial, by trivial, by trivial⟩
  · rw [if_neg hlu]
    all_goals cases hf1 : st.prefs.failKeys kPrefsUpdateStateNextOperation <;>
      simp only [hf1, Bool.false_eq_true, eq_self_iff_true,
        if_true, if_false, not_true, not_false_iff, ite_true, ite_false,
        not_false_eq_true, not_true_eq_false]
    all_goals exact ⟨by trivial, by trivial, by trivial⟩

theorem loopIter_keeps (env : Env) (st : FullState)
    (op : InstallOperation) (k : Bool) :
    (loopIter env st op k).1.manifest = st.manifest ∧
    (loopIter env st op k).1.manifest_valid = st.manifest_valid ∧
    ((loopIter env st op k).2.1 = true →
      (loopIter env st op k).1.next_operation_num =
        st.next_operation_num + 1) := by
  unfold loopIter
  rcases hA : preStep st op with ⟨sA, evsA⟩
  have kA := preStep_keeps st op
  rw [hA] at kA
  dsimp only at kA
  obtain ⟨kA1, kA2, kA3⟩ := kA
  try dsimp only
  rcases hB : dispatchOp env sA op k with ⟨sB, okB, evsB⟩
  have kB := dispatch_keeps env sA op k
  rw [hB] at kB
  dsimp only at kB
  obtain ⟨kB1, kB2, kB3⟩ := kB
  try dsimp only
  cases okB
  · try dsimp only
    exact ⟨kB1.trans kA1, kB3.trans kA3, fun h => by cases h⟩
  · try dsimp only
    rcases hC : CheckpointUpdateProgress
        { sB with next_operation_num := sB.next_operation_num + 1 } with
      ⟨sC, okC, evsC⟩
    have kC := checkpoint_keeps
      { sB with next_operation_num := sB.next_operation_num + 1 }
    rw [hC] at kC
    dsimp only at kC
    obtain ⟨kC1, kC2, kC3⟩ := kC
    refine ⟨kC1.trans (kB1.trans kA1), kC3.trans (kB3.trans kA3),
      fun _ => ?_⟩
    rw [kC2]
    try dsimp only
    rw [kB2, kA2]
    rfl

theorem not_move_of_replace (op : InstallOperation)
    (h : op.type = OpType.REPLACE ∨ op.type = OpType.REPLACE_BZ) :
    ¬op.type = OpType.MOVE := by
  rcases h with h | h <;> rw [h] <;> intro hx <;> cases hx

theorem canPerform_data_length (st : FullState) (op : InstallOperation)
    (hcan : CanPerformInstallOperation st op = true)
    (hmv : ¬op.type = OpType.MOVE)
    (hbo : st.buffer_offset = op.data_offset) :
    op.data_length ≤ st.buffer.length := by
  unfold CanPerformInstallOperation at hcan
  rw [if_neg hmv, if_neg (by omega)] at hcan
  have := of_decide_eq_true hcan
  omega

theorem addBytes_bo_bump (ex : List Byte) (st : FullState) (dl : Nat) :
    { addBytes ex st with buffer_offset :=
        (addBytes ex st).buffer_offset + dl } =
      addBytes ex { st with buffer_offset := st.buffer_offset + dl } := rfl

theorem replace_mirror (env : Env) (ex : List Byte) (st : FullState)
    (op : InstallOperation) (k : Bool)
    (hcan : CanPerformInstallOperation st op = true)
    (hok : (PerformReplaceOperation env (addBytes ex st) op k).2.1 = true) :
    (PerformReplaceOperation env st op k).2.1 = true ∧
    (PerformReplaceOperation env (addBytes ex st) op k).1 =
      addBytes ex (PerformReplaceOperation env st op k).1 := by
  unfold PerformReplaceOperation at hok ⊢
  dsimp only [addBytes] at hok ⊢
  by_cases h1 : ¬(op.type = OpType.REPLACE ∨ op.type = OpType.REPLACE_BZ)
  · rw [if_pos h1] at hok
    cases hok
  rw [if_neg h1] at hok ⊢
  rw [if_neg h1]
  by_cases h2 : ¬st.buffer_offset = op.data_offset
  · rw [if_pos h2] at hok
    cases hok
  rw [if_neg h2] at hok ⊢
  rw [if_neg h2]
  have hbo : st.buffer_offset = op.data_offset := not_not.mp h2
  have hdl : op.data_length ≤ st.buffer.length :=
    canPerform_data_length st op hcan
      (not_move_of_replace op (not_not.mp h1)) hbo
  rw [if_neg (show ¬(st.buffer ++ ex).length < op.data_length by
      simp only [List.length_append]; omega)] at hok ⊢
  rw [if_neg (show ¬st.buffer.length < op.data_length by omega)]
  rcases hEp : ExtractSignatureMessage st op with ⟨sE, gE, eE⟩
  have hEA := extract_addBytes ex st op hdl
  rw [hEp] at hEA
  rcases hEf : ExtractSignatureMessage
      { st with buffer := st.buffer ++ ex } op with ⟨sF, gF, eF⟩
  rw [show ExtractSignatureMessage (addBytes ex st) op =
      ExtractSignatureMessage { st with buffer := st.buffer ++ ex } op
      from rfl, hEf] at hEA
  obtain ⟨hEA1, hEA2⟩ := hEA
  dsimp only at hEA1 hEA2
  rw [hEf] at hok
  have k5 := extract_keeps st op
  rw [hEp] at k5
  dsimp only at k5
  obtain ⟨e1, e2, e3, e4, e5⟩ := k5
  have hdata : (addBytes ex sE).buffer.take op.data_length =
      sE.buffer.take op.data_length := by
    dsimp only [addBytes]
    rw [e2, List.take_append_of_le_length hdl, ← e2]
  rw [hEA1] at hok ⊢
  rw [hdata] at hok ⊢
  dsimp only at hok ⊢
  rcases hplain : (if op.type = OpType.REPLACE then
      some (sE.buffer.take op.data_length) else
      env.bunzip (sE.buffer.take op.data_length)) with _ | plain
  · rw [hplain] at hok
    cases hok
  · rw [hplain] at hok
    dsimp only at hok ⊢
    have hdev : (addBytes ex sE).device k = sE.device k :=
      device_addBytes ex sE k
    have hbs : (addBytes ex sE).block_size = sE.block_size := rfl
    rw [hdev, hbs, setDevice_addBytes, addBytes_bo_bump,
      discard_addBytes _ _ _ (show op.data_length ≤
        ({ sE.setDevice k _ with buffer_offset :=
            (sE.setDevice k _).buffer_offset + op.data_length } :
          FullState).buffer.length by
        dsimp only
        rw [setDevice_buffer, e2]
        omega)]
    exact ⟨rfl, rfl⟩

theorem move_mirror (ex : List Byte) (st : FullState)
    (op : InstallOperation) (k : Bool) :
    (PerformMoveOperation st op k).2.1 = true ∧
    (PerformMoveOperation (addBytes ex st) op k).1 =
      addBytes ex (PerformMoveOperation st op k).1 := by
  unfold PerformMoveOperation
  dsimp only
  refine ⟨rfl, ?_⟩
  rw [show (addBytes ex st).block_size = st.block_size from rfl,
    device_addBytes, setDevice_addBytes]

theorem bsdiff_mirror (env : Env) (ex : List Byte) (st : FullState)
    (op : InstallOperation) (k : Bool)
    (hty : op.type = OpType.BSDIFF)
    (hcan : CanPerformInstallOperation st op = true)
    (hok : (PerformBsdiffOperation env (addBytes ex st) op k).2.1 = true) :
    (PerformBsdiffOperation env st op k).2.1 = true ∧
    (PerformBsdiffOperation env (addBytes ex st) op k).1 =
      addBytes ex (PerformBsdiffOperation env st op k).1 := by
  unfold PerformBsdiffOperation at hok ⊢
  dsimp only at hok ⊢
  rw [show (addBytes ex st).buffer_offset = st.buffer_offset from rfl]
    at hok ⊢
  rw [show (addBytes ex st).block_size = st.block_size from rfl] at hok ⊢
  rw [show (addBytes ex st).buffer = st.buffer ++ ex from rfl] at hok ⊢
  rw [show (addBytes ex st).next_operation_num = st.next_operation_num
    from rfl] at hok ⊢
  by_cases h1 : ¬st.buffer_offset = op.data_offset
  · rw [if_pos h1] at hok
    cases hok
  rw [if_neg h1] at hok ⊢
  rw [if_neg h1]
  have hdl : op.data_length ≤ st.buffer.length :=
    canPerform_data_length st op hcan
      (by rw [hty]; intro h; cases h) (not_not.mp h1)
  rw [if_neg (show ¬(st.buffer ++ ex).length < op.data_length by
      simp only [List.length_append]; omega)] at hok ⊢
  rw [if_neg (show ¬st.buffer.length < op.data_length by omega)]
  rcases hip : ExtentsToBsdiffPositionsString op.src_extents st.block_size
      op.src_length with _ | ip
  · rw [hip] at hok
    cases hok
  rw [hip] at hok
  rcases hop : ExtentsToBsdiffPositionsString op.dst_extents st.block_size
      op.dst_length with _ | opos
  · rw [hop] at hok
    cases hok
  rw [hop] at hok
  dsimp only at hok ⊢
  rw [device_addBytes] at hok ⊢
  rw [List.take_append_of_le_length hdl] at hok ⊢
  rcases hbs : env.bspatch (st.device k) (st.buffer.take op.data_length)
      ip opos with ⟨dev1, rc⟩
  simp only [hbs] at hok ⊢
  try dsimp only at hok ⊢
  by_cases hrc : rc ≠ 0
  · rw [if_pos hrc] at hok
    cases hok
  rw [if_neg hrc] at hok ⊢
  rw [if_neg hrc]
  rw [show ((addBytes ex st).setDevice k dev1).block_size = st.block_size
    from setDevice_block_size (addBytes ex st) k dev1] at hok ⊢
  rw [show (st.setDevice k dev1).block_size = st.block_size
    from setDevice_block_size st k dev1]
  by_cases hmod : op.dst_length % st.block_size ≠ 0
  · rw [if_pos hmod] at hok ⊢
    rw [if_pos hmod]
    dsimp only at hok ⊢
    rw [setDevice_addBytes, setDevice_addBytes, addBytes_bo_bump,
      discard_addBytes _ _ _ (show op.data_length ≤
        ({ (st.setDevice k dev1).setDevice k _ with buffer_offset :=
            ((st.setDevice k dev1).setDevice k _).buffer_offset +
              op.data_length } : FullState).buffer.length by
        dsimp only
        rw [setDevice_buffer, setDevice_buffer]
        omega)]
    exact ⟨rfl, rfl⟩
  · rw [if_neg hmod] at hok ⊢
    rw [if_neg hmod]
    dsimp only at hok ⊢
    rw [setDevice_addBytes, addBytes_bo_bump,
      discard_addBytes _ _ _ (show op.data_length ≤
        ({ st.setDevice k dev1 with buffer_offset :=
            (st.setDevice k dev1).buffer_offset + op.data_length } :
          FullState).buffer.length by
        dsimp only
        rw [setDevice_buffer]
        omega)]
    exact ⟨rfl, rfl⟩

theorem canPerform_preStep (st : FullState) (op : InstallOperation) :
    CanPerformInstallOperation (preStep st op).1 op =
      CanPerformInstallOperation st op := by
  unfold preStep ResetUpdateProgress Prefs.setInt64 Prefs.set
    CanPerformInstallOperation
  repeat' split
  all_goals rfl

theorem dispatch_mirror (env : Env) (ex : List Byte) (st : FullState)
    (op : InstallOperation) (k : Bool)
    (hcan : CanPerformInstallOperation st op = true)
    (hok : (dispatchOp env (addBytes ex st) op k).2.1 = true) :
    (dispatchOp env st op k).2.1 = true ∧
    (dispatchOp env (addBytes ex st) op k).1 =
      addBytes ex (dispatchOp env st op k).1 := by
  unfold dispatchOp at hok ⊢
  cases hty : op.type <;> rw [hty] at hok <;> dsimp only at hok ⊢
  · exact replace_mirror env ex st op k hcan hok
  · exact replace_mirror env ex st op k hcan hok
  · exact move_mirror ex st op k
  · exact bsdiff_mirror env ex st op k hty hcan hok

theorem addBytes_next_bump (ex : List Byte) (st : FullState) :
    { addBytes ex st with next_operation_num :=
        (addBytes ex st).next_operation_num + 1 } =
      addBytes ex { st with next_operation_num :=
        st.next_operation_num + 1 } := rfl

theorem addBytes_term_clear (ex : List Byte) (st : FullState) :
    ({ addBytes ex st with terminator_blocked := false } : FullState) =
      addBytes ex { st with terminator_blocked := false } := rfl

theorem loopIter_mirror (env : Env) (ex : List Byte) (st : FullState)
    (op : InstallOperation) (k : Bool)
    (hcan : CanPerformInstallOperation st op = true)
    (hok : (loopIter env (addBytes ex st) op k).2.1 = true) :
    (loopIter env st op k).2.1 = true ∧
    (loopIter env (addBytes ex st) op k).1 =
      addBytes ex (loopIter env st op k).1 := by
  unfold loopIter at hok ⊢
  rcases hA : preStep st op with ⟨sA, evsA⟩
  have pA := preStep_addBytes ex st op
  rw [hA] at pA
  rcases hAF : preStep (addBytes ex st) op with ⟨sAF, evsAF⟩
  rw [hAF] at pA
  dsimp only at pA
  obtain ⟨pA1, pA2⟩ := pA
  rw [hAF] at hok
  dsimp only at hok ⊢
  rw [pA1] at hok ⊢
  rcases hB : dispatchOp env sA op k with ⟨sB, okB, evsB⟩
  rcases hBF : dispatchOp env (addBytes ex sA) op k with ⟨sBF, okBF, evsBF⟩
  rw [hBF] at hok
  dsimp only at hok ⊢
  cases okBF
  · try dsimp only at hok
    cases hok
  have hcanA : CanPerformInstallOperation sA op = true := by
    have h := canPerform_preStep st op
    rw [hA] at h
    dsimp only at h
    rw [h]
    exact hcan
  have hM := dispatch_mirror env ex sA op k hcanA (by rw [hBF])
  rw [hB, hBF] at hM
  try dsimp only at hM
  obtain ⟨hMok, hMst⟩ := hM
  subst hMok
  try dsimp only at hok ⊢
  rw [hMst] at hok ⊢
  rw [addBytes_next_bump] at hok ⊢
  rcases hC : CheckpointUpdateProgress
      { sB with next_operation_num := sB.next_operation_num + 1 } with
    ⟨sC, okC, evsC⟩
  have pC := checkpoint_addBytes ex
    { sB with next_operation_num := sB.next_operation_num + 1 }
  rw [hC] at pC
  rcases hCF : CheckpointUpdateProgress (addBytes ex
      { sB with next_operation_num := sB.next_operation_num + 1 }) with
    ⟨sCF, okCF, evsCF⟩
  rw [hCF] at pC
  dsimp only at pC
  obtain ⟨pC1, pC2⟩ := pC
  rw [hCF] at hok
  dsimp only at hok ⊢
  rw [pC1]
  rw [addBytes_term_clear]
  exact ⟨rfl, rfl⟩

theorem opLoop_done (env : Env) (st : FullState)
    (h : ¬ st.next_operation_num < totalOps st.manifest) :
    ∀ g, opLoop env g st = (st, true, []) := by
  intro g
  cases g
  · rfl
  · rw [opLoop]
    dsimp only
    rw [if_neg h]

theorem opLoop_stuck (env : Env) (st : FullState)
    (hc : ¬ CanPerformInstallOperation st
      (opAt st.manifest st.next_operation_num) = true) :
    ∀ g, opLoop env g st = (st, true, []) := by
  intro g
  cases g
  · rfl
  · rw [opLoop]
    dsimp only
    by_cases hlt : st.next_operation_num < totalOps st.manifest
    · rw [if_pos hlt, if_neg hc]
    · rw [if_neg hlt]

theorem opLoop_manifest (env : Env) : ∀ (f : Nat) (st : FullState),
    (opLoop env f st).1.manifest = st.manifest := by
  intro f
  induction f with
  | zero => intro st; rfl
  | succ f ih =>
    intro st
    rw [opLoop]
    dsimp only
    split
    · split
      · rcases hI : loopIter env st (opAt st.manifest st.next_operation_num)
            (decide (st.manifest.install_operations.length ≤
              st.next_operation_num)) with ⟨sI, okI, evsI⟩
        have hK := loopIter_keeps env st
          (opAt st.manifest st.next_operation_num)
          (decide (st.manifest.install_operations.length ≤
            st.next_operation_num))
        rw [hI] at hK
        dsimp only at hK
        try dsimp only
        cases okI
        · exact hK.1
        · rcases hR : opLoop env f sI with ⟨s2, ok2, evs2⟩
          have hRm := ih sI
          rw [hR] at hRm
          dsimp only at hRm ⊢
          exact hRm.trans hK.1
      · rfl
    · rfl

theorem opLoop_fuel (env : Env) : ∀ (f : Nat) (st : FullState),
    totalOps st.manifest - st.next_operation_num ≤ f →
    opLoop env f st =
      opLoop env (totalOps st.manifest - st.next_operation_num) st := by
  intro f
  induction f with
  | zero =>
    intro st hf
    have h0 : totalOps st.manifest - st.next_operation_num = 0 := by omega
    rw [h0]
  | succ f ih =>
    intro st hf
    by_cases hlt : st.next_operation_num < totalOps st.manifest
    · have hneed : totalOps st.manifest - st.next_operation_num =
          (totalOps st.manifest - (st.next_operation_num + 1)) + 1 := by
        omega
      rw [hneed, opLoop, opLoop]
      dsimp only
      rw [if_pos hlt, if_pos hlt]
      by_cases hcan : CanPerformInstallOperation st
          (opAt st.manifest st.next_operation_num) = true
      · rw [if_pos hcan, if_pos hcan]
        rcases hI : loopIter env st (opAt st.manifest st.next_operation_num)
            (decide (st.manifest.install_operations.length ≤
              st.next_operation_num)) with ⟨sI, okI, evsI⟩
        have hK := loopIter_keeps env st
          (opAt st.manifest st.next_operation_num)
          (decide (st.manifest.install_operations.length ≤
            st.next_operation_num))
        rw [hI] at hK
        dsimp only at hK
        obtain ⟨k1, k2, k3⟩ := hK
        try dsimp only
        cases okI
        · rfl
        · have hnext : sI.next_operation_num = st.next_operation_num + 1 :=
            k3 rfl
          try dsimp only
          rw [show opLoop env f sI = opLoop env
              (totalOps sI.manifest - sI.next_operation_num) sI from
            ih sI (by rw [k1, hnext]; omega)]
          rw [show totalOps st.manifest - (st.next_operation_num + 1) =
            totalOps sI.manifest - sI.next_operation_num by
            rw [k1, hnext]]
      · rw [if_neg hcan, if_neg hcan]
    · rw [opLoop]
      dsimp only
      rw [if_neg hlt]
      have h0 : totalOps st.manifest - st.next_operation_num = 0 := by omega
      rw [h0]
      rfl

theorem opLoop_mirror (env : Env) (ex : List Byte) :
    ∀ (f : Nat) (st : FullState),
    totalOps st.manifest - st.next_operation_num ≤ f →
    (opLoop env f (addBytes ex st)).2.1 = true →
    (opLoop env f st).2.1 = true ∧
    ∀ g, totalOps st.manifest - (opLoop env f st).1.next_operation_num ≤ g →
      (opLoop env g (addBytes ex (opLoop env f st).1)).1 =
        (opLoop env f (addBytes ex st)).1 ∧
      (opLoop env g (addBytes ex (opLoop env f st).1)).2.1 = true := by
  intro f
  induction f with
  | zero =>
    intro st hf hok
    refine ⟨rfl, fun g hg => ?_⟩
    rw [show (opLoop env 0 st).1 = st from rfl,
      show (opLoop env 0 (addBytes ex st)).1 = addBytes ex st from rfl]
    rw [opLoop_done env (addBytes ex st) (show
      ¬(addBytes ex st).next_operation_num <
        totalOps (addBytes ex st).manifest from by
        rw [show (addBytes ex st).next_operation_num = st.next_operation_num
          from rfl, show (addBytes ex st).manifest = st.manifest from rfl]
        omega)]
    exact ⟨rfl, rfl⟩
  | succ f ih =>
    intro st hf hok
    by_cases hlt : st.next_operation_num < totalOps st.manifest
    · by_cases hcanP : CanPerformInstallOperation st
          (opAt st.manifest st.next_operation_num) = true
      · have hcanF : CanPerformInstallOperation (addBytes ex st)
            (opAt st.manifest st.next_operation_num) = true :=
          canPerform_addBytes_mono ex st _ hcanP
        rcases hIF : loopIter env (addBytes ex st)
            (opAt st.manifest st.next_operation_num)
            (decide (st.manifest.install_operations.length ≤
              st.next_operation_num)) with ⟨sIF, okIF, evsIF⟩
        cases okIF
        · -- a failing full-side iteration contradicts hok
          rw [show opLoop env (f + 1) (addBytes ex st) =
              (sIF, false, evsIF) from by
            rw [opLoop]
            dsimp only
            rw [show (addBytes ex st).next_operation_num =
                st.next_operation_num from rfl,
              show (addBytes ex st).manifest = st.manifest from rfl,
              if_pos hlt, if_pos hcanF, hIF,
              if_neg (Bool.false_ne_true)]] at hok
          cases hok
        rcases hIP : loopIter env st
            (opAt st.manifest st.next_operation_num)
            (decide (st.manifest.install_operations.length ≤
              st.next_operation_num)) with ⟨sIP, okIP, evsIP⟩
        have hMir := loopIter_mirror env ex st
          (opAt st.manifest st.next_operation_num)
          (decide (st.manifest.install_operations.length ≤
            st.next_operation_num)) hcanP (by rw [hIF])
        rw [hIP, hIF] at hMir
        dsimp only at hMir
        obtain ⟨hMok, hMst⟩ := hMir
        subst hMok
        have hBeq : opLoop env (f + 1) (addBytes ex st) =
            ((opLoop env f sIF).1, (opLoop env f sIF).2.1,
              evsIF ++ (opLoop env f sIF).2.2) := by
          rw [opLoop]
          dsimp only
          rw [show (addBytes ex st).next_operation_num =
              st.next_operation_num from rfl,
            show (addBytes ex st).manifest = st.manifest from rfl,
            if_pos hlt, if_pos hcanF, hIF, if_pos rfl]
        have hAeq : opLoop env (f + 1) st =
            ((opLoop env f sIP).1, (opLoop env f sIP).2.1,
              evsIP ++ (opLoop env f sIP).2.2) := by
          rw [opLoop]
          dsimp only
          rw [if_pos hlt, if_pos hcanP, hIP, if_pos rfl]
        have hKeeps := loopIter_keeps env st
          (opAt st.manifest st.next_operation_num)
          (decide (st.manifest.install_operations.length ≤
            st.next_operation_num))
        rw [hIP] at hKeeps
        dsimp only at hKeeps
        obtain ⟨hKm, hKv, hKn⟩ := hKeeps
        have hnext : sIP.next_operation_num = st.next_operation_num + 1 :=
          hKn rfl
        rw [hBeq] at hok ⊢
        rw [hAeq]
        dsimp only at hok ⊢
        rw [hMst] at hok ⊢
        obtain ⟨ihOk, ihStage⟩ := ih sIP (by rw [hKm, hnext]; omega) hok
        refine ⟨ihOk, fun g hg => ?_⟩
        refine ihStage g ?_
        rw [hKm]
        exact hg
      · rw [opLoop_stuck env st hcanP]
        dsimp only
        refine ⟨rfl, fun g hg => ?_⟩
        by_cases hcanF : CanPerformInstallOperation (addBytes ex st)
            (opAt st.manifest st.next_operation_num) = true
        · have hcnv1 : totalOps (addBytes ex st).manifest -
              (addBytes ex st).next_operation_num ≤ f + 1 := by
            rw [show (addBytes ex st).next_operation_num =
              st.next_operation_num from rfl,
              show (addBytes ex st).manifest = st.manifest from rfl]
            omega
          have hcnv2 : totalOps (addBytes ex st).manifest -
              (addBytes ex st).next_operation_num ≤ g := by
            rw [show (addBytes ex st).next_operation_num =
              st.next_operation_num from rfl,
              show (addBytes ex st).manifest = st.manifest from rfl]
            omega
          have e1 := opLoop_fuel env (f + 1) (addBytes ex st) hcnv1
          have e2 := opLoop_fuel env g (addBytes ex st) hcnv2
          rw [e1] at hok ⊢
          rw [e2]
          exact ⟨rfl, hok⟩
        · rw [opLoop_stuck env (addBytes ex st) (by
            rw [show (addBytes ex st).manifest = st.manifest from rfl,
              show (addBytes ex st).next_operation_num =
                st.next_operation_num from rfl]
            exact hcanF)]
          rw [opLoop_stuck env (addBytes ex st) (by
            rw [show (addBytes ex st).manifest = st.manifest from rfl,
              show (addBytes ex st).next_operation_num =
                st.next_operation_num from rfl]
            exact hcanF)]
          exact ⟨rfl, rfl⟩
    · rw [opLoop_done env st (by omega)]
      dsimp only
      refine ⟨rfl, fun g hg => ?_⟩
      rw [opLoop_done env (addBytes ex st) (by
        rw [show (addBytes ex st).next_operation_num =
            st.next_operation_num from rfl,
          show (addBytes ex st).manifest = st.manifest from rfl]
        omega)]
      rw [opLoop_done env (addBytes ex st) (by
        rw [show (addBytes ex st).next_operation_num =
            st.next_operation_num from rfl,
          show (addBytes ex st).manifest = st.manifest from rfl]
        omega)]
      exact ⟨rfl, rfl⟩

theorem tryParse_addBytes (env : Env) (ex : List Byte) (st : FullState)
    (s : FullState) (evs : List Event)
    (hp : tryParseManifest env st = .ok s evs) :
    tryParseManifest env (addBytes ex st) = .ok (addBytes ex s) evs := by
  unfold tryParseManifest at hp
  dsimp only at hp
  split at hp
  · cases hp
  rename_i h1
  split at hp
  · cases hp
  rename_i h2
  split at hp
  · cases hp
  rename_i m hm
  unfold tryParseManifest
  dsimp only [addBytes]
  have hlen1 : ¬(st.buffer ++ ex).length <
      kDeltaMagicLen + kDeltaVersionLength + kDeltaProtobufLengthLength := by
    simp only [List.length_append]
    omega
  rw [if_neg hlen1]
  have hdrop1 : (st.buffer ++ ex).drop
      (kDeltaMagicLen + kDeltaVersionLength) =
      st.buffer.drop (kDeltaMagicLen + kDeltaVersionLength) ++ ex :=
    List.drop_append_of_le_length (by
      unfold kDeltaMagicLen kDeltaVersionLength at *
      unfold kDeltaProtobufLengthLength at h1
      omega)
  rw [hdrop1]
  have htake1 : (st.buffer.drop (kDeltaMagicLen + kDeltaVersionLength) ++
      ex).take kDeltaProtobufLengthLength =
      (st.buffer.drop (kDeltaMagicLen + kDeltaVersionLength)).take
        kDeltaProtobufLengthLength :=
    List.take_append_of_le_length (by
      rw [List.length_drop]
      unfold kDeltaMagicLen kDeltaVersionLength at *
      unfold kDeltaProtobufLengthLength at *
      omega)
  rw [htake1]
  have hlen2 : ¬(st.buffer ++ ex).length <
      kDeltaMagicLen + kDeltaVersionLength + kDeltaProtobufLengthLength +
        be64 ((st.buffer.drop (kDeltaMagicLen + kDeltaVersionLength)).take
          kDeltaProtobufLengthLength) := by
    simp only [List.length_append]
    omega
  rw [if_neg hlen2]
  have hdrop2 : (st.buffer ++ ex).drop
      (kDeltaMagicLen + kDeltaVersionLength + kDeltaProtobufLengthLength) =
      st.buffer.drop (kDeltaMagicLen + kDeltaVersionLength +
        kDeltaProtobufLengthLength) ++ ex :=
    List.drop_append_of_le_length (by omega)
  rw [hdrop2]
  have htake2 : (st.buffer.drop (kDeltaMagicLen + kDeltaVersionLength +
      kDeltaProtobufLengthLength) ++ ex).take
        (be64 ((st.buffer.drop (kDeltaMagicLen +
          kDeltaVersionLength)).take kDeltaProtobufLengthLength)) =
      (st.buffer.drop (kDeltaMagicLen + kDeltaVersionLength +
        kDeltaProtobufLengthLength)).take
        (be64 ((st.buffer.drop (kDeltaMagicLen +
          kDeltaVersionLength)).take kDeltaProtobufLengthLength)) :=
    List.take_append_of_le_length (by
      rw [List.length_drop]
      omega)
  rw [htake2, hm]
  dsimp only
  cases hp
  unfold DiscardBufferHeadBytes Hasher.update
  dsimp only
  rw [List.take_append_of_le_length (by omega),
    List.drop_append_of_le_length (by omega)]

theorem write_valid_eq (env : Env) (st : FullState) (bytes : List Byte)
    (hv : st.manifest_valid = true) :
    Write env st bytes =
      ((opLoop env (totalOps st.manifest - st.next_operation_num)
          (addBytes bytes st)).1,
        (if (opLoop env (totalOps st.manifest - st.next_operation_num)
            (addBytes bytes st)).2.1 = true then (bytes.length : Int)
          else -EINVAL),
        (opLoop env (totalOps st.manifest - st.next_operation_num)
          (addBytes bytes st)).2.2) := by
  unfold Write
  dsimp only
  rw [show (addBytes bytes st).manifest_valid = st.manifest_valid from rfl,
    hv, if_pos rfl]
  dsimp only
  rw [show (addBytes bytes st).manifest = st.manifest from rfl,
    show (addBytes bytes st).next_operation_num = st.next_operation_num
      from rfl]
  rcases hR : opLoop env (totalOps st.manifest - st.next_operation_num)
      (addBytes bytes st) with ⟨a, b, c⟩
  dsimp only
  rw [List.nil_append]

theorem write_needMore_eq (env : Env) (st : FullState) (bytes : List Byte)
    (hv : st.manifest_valid = false)
    (hp : tryParseManifest env (addBytes bytes st) = .needMore) :
    Write env st bytes = (addBytes bytes st, (bytes.length : Int), []) := by
  unfold Write
  dsimp only
  rw [show (addBytes bytes st).manifest_valid = st.manifest_valid from rfl,
    hv, if_neg (by intro h; cases h), hp]

theorem write_err_eq (env : Env) (st : FullState) (bytes : List Byte)
    (hv : st.manifest_valid = false)
    (hp : tryParseManifest env (addBytes bytes st) = .err) :
    Write env st bytes = (addBytes bytes st, -EINVAL, []) := by
  unfold Write
  dsimp only
  rw [show (addBytes bytes st).manifest_valid = st.manifest_valid from rfl,
    hv, if_neg (by intro h; cases h), hp]

theorem write_parse_eq (env : Env) (st : FullState) (bytes : List Byte)
    (s : FullState) (evs : List Event)
    (hv : st.manifest_valid = false)
    (hp : tryParseManifest env (addBytes bytes st) = .ok s evs) :
    Write env st bytes =
      ((opLoop env (totalOps s.manifest - s.next_operation_num) s).1,
        (if (opLoop env (totalOps s.manifest - s.next_operation_num)
            s).2.1 = true then (bytes.length : Int) else -EINVAL),
        evs ++ (opLoop env (totalOps s.manifest - s.next_operation_num)
          s).2.2) := by
  unfold Write
  dsimp only
  rw [show (addBytes bytes st).manifest_valid = st.manifest_valid from rfl,
    hv, if_neg (by intro h; cases h), hp]

theorem tryParse_addBytes_err (env : Env) (ex : List Byte) (st : FullState)
    (hp : tryParseManifest env st = .err) :
    tryParseManifest env (addBytes ex st) = .err := by
  unfold tryParseManifest at hp
  dsimp only at hp
  split at hp
  · cases hp
  rename_i h1
  split at hp
  · cases hp
  rename_i h2
  split at hp
  rename_i hm
  · unfold tryParseManifest
    dsimp only [addBytes]
    have hlen1 : ¬(st.buffer ++ ex).length <
        kDeltaMagicLen + kDeltaVersionLength +
          kDeltaProtobufLengthLength := by
      simp only [List.length_append]
      omega
    rw [if_neg hlen1]
    have hdrop1 : (st.buffer ++ ex).drop
        (kDeltaMagicLen + kDeltaVersionLength) =
        st.buffer.drop (kDeltaMagicLen + kDeltaVersionLength) ++ ex :=
      List.drop_append_of_le_length (by
        unfold kDeltaMagicLen kDeltaVersionLength at *
        unfold kDeltaProtobufLengthLength at h1
        omega)
    rw [hdrop1]
    have htake1 : (st.buffer.drop (kDeltaMagicLen + kDeltaVersionLength) ++
        ex).take kDeltaProtobufLengthLength =
        (st.buffer.drop (kDeltaMagicLen + kDeltaVersionLength)).take
          kDeltaProtobufLengthLength :=
      List.take_append_of_le_length (by
        rw [List.length_drop]
        unfold kDeltaMagicLen kDeltaVersionLength at *
        unfold kDeltaProtobufLengthLength at *
        omega)
    rw [htake1]
    have hlen2 : ¬(st.buffer ++ ex).length <
        kDeltaMagicLen + kDeltaVersionLength + kDeltaProtobufLengthLength +
          be64 ((st.buffer.drop (kDeltaMagicLen +
            kDeltaVersionLength)).take kDeltaProtobufLengthLength) := by
      simp only [List.length_append]
      omega
    rw [if_neg hlen2]
    have hdrop2 : (st.buffer ++ ex).drop
        (kDeltaMagicLen + kDeltaVersionLength +
          kDeltaProtobufLengthLength) =
        st.buffer.drop (kDeltaMagicLen + kDeltaVersionLength +
          kDeltaProtobufLengthLength) ++ ex :=
      List.drop_append_of_le_length (by omega)
    rw [hdrop2]
    have htake2 : (st.buffer.drop (kDeltaMagicLen + kDeltaVersionLength +
        kDeltaProtobufLengthLength) ++ ex).take
          (be64 ((st.buffer.drop (kDeltaMagicLen +
            kDeltaVersionLength)).take kDeltaProtobufLengthLength)) =
        (st.buffer.drop (kDeltaMagicLen + kDeltaVersionLength +
          kDeltaProtobufLengthLength)).take
          (be64 ((st.buffer.drop (kDeltaMagicLen +
            kDeltaVersionLength)).take kDeltaProtobufLengthLength)) :=
      List.take_append_of_le_length (by
        rw [List.length_drop]
        omega)
    rw [htake2, hm]
  · cases hp

theorem write_stage2 (env : Env) (s : FullState) (b2 : List Byte)
    (hv : s.manifest_valid = true)
    (hok : (opLoop env (totalOps s.manifest - s.next_operation_num)
      (addBytes b2 s)).2.1 = true) :
    (opLoop env (totalOps s.manifest - s.next_operation_num) s).2.1 =
      true ∧
    (Write env (opLoop env (totalOps s.manifest - s.next_operation_num)
        s).1 b2).1 =
      (opLoop env (totalOps s.manifest - s.next_operation_num)
        (addBytes b2 s)).1 ∧
    (Write env (opLoop env (totalOps s.manifest - s.next_operation_num)
        s).1 b2).2.1 = (b2.length : Int) := by
  obtain ⟨mOk, mStage⟩ := opLoop_mirror env b2
    (totalOps s.manifest - s.next_operation_num) s (by omega) hok
  have hPv : (opLoop env (totalOps s.manifest - s.next_operation_num)
      s).1.manifest_valid = true := by
    have h := (hashFrame_opLoop env
      (totalOps s.manifest - s.next_operation_num) s).2.2.2
    rw [h]
    exact hv
  have hPm : (opLoop env (totalOps s.manifest - s.next_operation_num)
      s).1.manifest = s.manifest :=
    opLoop_manifest env (totalOps s.manifest - s.next_operation_num) s
  have hW := write_valid_eq env
    (opLoop env (totalOps s.manifest - s.next_operation_num) s).1 b2 hPv
  obtain ⟨st2, st2ok⟩ := mStage
    (totalOps (opLoop env (totalOps s.manifest - s.next_operation_num)
      s).1.manifest -
      (opLoop env (totalOps s.manifest - s.next_operation_num)
        s).1.next_operation_num)
    (by rw [hPm])
  refine ⟨mOk, ?_, ?_⟩
  · rw [hW]
    dsimp only
    rw [hPm]
    rw [hPm] at st2
    exact st2
  · rw [hW]
    dsimp only
    rw [hPm]
    rw [hPm] at st2ok
    rw [st2ok, if_pos rfl]

theorem write_split (env : Env) (st : FullState) (b1 b2 : List Byte)
    (hS : (Write env st (b1 ++ b2)).2.1 = ((b1 ++ b2).length : Int)) :
    (Write env st b1).2.1 = (b1.length : Int) ∧
    (Write env (Write env st b1).1 b2).1 = (Write env st (b1 ++ b2)).1 ∧
    (Write env (Write env st b1).1 b2).2.1 = (b2.length : Int) := by
  by_cases hv : st.manifest_valid = true
  · have hWS := write_valid_eq env st (b1 ++ b2) hv
    have hokF : (opLoop env (totalOps st.manifest - st.next_operation_num)
        (addBytes (b1 ++ b2) st)).2.1 = true := by
      by_contra hno
      rw [hWS] at hS
      dsimp only at hS
      rw [if_neg hno] at hS
      unfold EINVAL at hS
      omega
    rw [show addBytes (b1 ++ b2) st = addBytes b2 (addBytes b1 st) from
      (addBytes_addBytes b1 b2 st).symm] at hokF
    obtain ⟨okP, stEq, ret2⟩ := write_stage2 env (addBytes b1 st) b2
      (show (addBytes b1 st).manifest_valid = true from hv)
      (show (opLoop env (totalOps (addBytes b1 st).manifest -
          (addBytes b1 st).next_operation_num)
        (addBytes b2 (addBytes b1 st))).2.1 = true from hokF)
    have hW1 := write_valid_eq env st b1 hv
    refine ⟨?_, ?_, ?_⟩
    · rw [hW1]
      dsimp only
      rw [show (opLoop env (totalOps st.manifest - st.next_operation_num)
          (addBytes b1 st)).2.1 = true from okP, if_pos rfl]
    · rw [hW1, hWS]
      dsimp only
      rw [show addBytes (b1 ++ b2) st = addBytes b2 (addBytes b1 st) from
        (addBytes_addBytes b1 b2 st).symm]
      exact stEq
    · rw [hW1]
      dsimp only
      exact ret2
  · have hvf : st.manifest_valid = false := by
      cases h : st.manifest_valid
      · rfl
      · exact absurd h hv
    rcases hp1 : tryParseManifest env (addBytes b1 st) with _ | _ | ⟨s, evs⟩
    · -- the first chunk only buffers
      have hW1 := write_needMore_eq env st b1 hvf hp1
      have hvf1 : (addBytes b1 st).manifest_valid = false := hvf
      rcases hp2 : tryParseManifest env (addBytes b2 (addBytes b1 st))
        with _ | _ | ⟨s2, evs2⟩
      · have hW2 := write_needMore_eq env (addBytes b1 st) b2 hvf1 hp2
        have hWS := write_needMore_eq env st (b1 ++ b2) hvf (by
          rw [← addBytes_addBytes]
          exact hp2)
        rw [hW1, hW2, hWS]
        dsimp only
        rw [addBytes_addBytes]
        exact ⟨rfl, rfl, rfl⟩
      · have hWS := write_err_eq env st (b1 ++ b2) hvf (by
          rw [← addBytes_addBytes]
          exact hp2)
        rw [hWS] at hS
        dsimp only at hS
        unfold EINVAL at hS
        omega
      · have hW2 := write_parse_eq env (addBytes b1 st) b2 s2 evs2 hvf1 hp2
        have hWS := write_parse_eq env st (b1 ++ b2) s2 evs2 hvf (by
          rw [← addBytes_addBytes]
          exact hp2)
        have hok2 : (opLoop env (totalOps s2.manifest -
            s2.next_operation_num) s2).2.1 = true := by
          by_contra hno
          rw [hWS] at hS
          dsimp only at hS
          rw [if_neg hno] at hS
          unfold EINVAL at hS
          omega
        rw [hW1, hW2, hWS]
        dsimp only
        rw [hok2, if_pos rfl]
        exact ⟨rfl, rfl, rfl⟩
    · -- the first chunk alone already fails the protobuf parse
      have hWS := write_err_eq env st (b1 ++ b2) hvf (by
        rw [← addBytes_addBytes]
        exact tryParse_addBytes_err env b2 (addBytes b1 st) hp1)
      rw [hWS] at hS
      dsimp only at hS
      unfold EINVAL at hS
      omega
    · -- the first chunk completes the manifest
      have hp2 : tryParseManifest env (addBytes (b1 ++ b2) st) =
          .ok (addBytes b2 s) evs := by
        rw [← addBytes_addBytes]
        exact tryParse_addBytes env b2 (addBytes b1 st) s evs hp1
      have hW1 := write_parse_eq env st b1 s evs hvf hp1
      have hWS := write_parse_eq env st (b1 ++ b2) (addBytes b2 s) evs
        hvf hp2
      have hsv : s.manifest_valid = true :=
        (tryParse_ok_inv env (addBytes b1 st) s evs hp1).2.2.2.2
      have hokF : (opLoop env (totalOps s.manifest -
          s.next_operation_num) (addBytes b2 s)).2.1 = true := by
        by_contra hno
        rw [hWS] at hS
        dsimp only at hS
        rw [show totalOps (addBytes b2 s).manifest = totalOps s.manifest
          from rfl, show (addBytes b2 s).next_operation_num =
            s.next_operation_num from rfl] at hS
        rw [if_neg hno] at hS
        unfold EINVAL at hS
        omega
      obtain ⟨okP, stEq, ret2⟩ := write_stage2 env s b2 hsv hokF
      refine ⟨?_, ?_, ?_⟩
      · rw [hW1]
        dsimp only
        rw [okP, if_pos rfl]
      · rw [hW1, hWS]
        dsimp only
        rw [show totalOps (addBytes b2 s).manifest = totalOps s.manifest
          from rfl, show (addBytes b2 s).next_operation_num =
            s.next_operation_num from rfl]
        exact stEq
      · rw [hW1]
        dsimp only
        exact ret2

/-- **C1 (amended).** Chunking invariance holds for accepted payloads:
if feeding the whole payload in one `Write` call returns the full byte
count (no failure), then feeding it as any non-empty sequence of
consecutive chunks accepts every chunk and ends in exactly the same
applier state — same devices, same hash context, same everything.  (For
payloads on which some operation fails, chunking invariance is refuted by
`C1_counterexample`: a failing `bsdiff` runs once per `Write` call that
retries it, mutating the device each time.) -/
theorem C1_chunked_write (env : Env) (st : FullState)
    (chunks : List (List Byte)) (hne : chunks ≠ [])
    (hS : (Write env st chunks.flatten).2.1 =
      (chunks.flatten.length : Int)) :
    writeAllOk env st chunks ∧
    writeAll env st chunks = (Write env st chunks.flatten).1 := by
  revert hne hS
  induction chunks generalizing st with
  | nil =>
    intro hne hS
    exact absurd rfl hne
  | cons c cs ih =>
    intro hne hS
    rw [List.flatten_cons] at hS
    obtain ⟨ret1, stEq, ret2⟩ := write_split env st c cs.flatten hS
    cases cs with
    | nil =>
      refine ⟨⟨ret1, trivial⟩, ?_⟩
      show (Write env st c).1 = _
      rw [show (c :: ([] : List (List Byte))).flatten = c ++ [] from rfl,
        List.append_nil]
    | cons c2 cs2 =>
      obtain ⟨okRest, eqRest⟩ := ih (Write env st c).1
        (by intro h; cases h) ret2
      refine ⟨⟨ret1, okRest⟩, ?_⟩
      show writeAll env (Write env st c).1 (c2 :: cs2) = _
      rw [eqRest, List.flatten_cons]
      exact stEq

/-- **C1 counterexample.** The frozen claim (chunking invariance for
every payload) is false: with a payload whose BSDIFF operation fails
after mutating the device, feeding the payload in two chunks runs the
failing patch twice (the operation counter is never advanced), leaving
rootfs byte 0 at 2, while the single-shot call runs it once, leaving it
at 1. -/
theorem C1_counterexample :
    chunksC1.flatten = payloadC1 ∧
    ¬ (writeAll envC1 stC4 chunksC1).rootfs 0 =
      (Write envC1 stC4 payloadC1).1.rootfs 0 := by
  decide

/-- Witness for `C1_chunked_write`: a fully accepted payload fed in two
chunks. -/
theorem C1_chunked_write_witness :
    (chunksC1w ≠ [] ∧
     (Write envC4 stC4 chunksC1w.flatten).2.1 =
       (chunksC1w.flatten.length : Int)) ∧
    (writeAllOk envC4 stC4 chunksC1w ∧
     writeAll envC4 stC4 chunksC1w =
       (Write envC4 stC4 chunksC1w.flatten).1) :=
  ⟨⟨by decide, by decide⟩,
   C1_chunked_write envC4 stC4 chunksC1w (by decide) (by decide)⟩

end DeltaPerformerModel
